import Mathlib

/-!
Verification of `cmd/packaging/packaging.go` (hover packaging task graph).

The Go code is shallowly embedded: the filesystem is a set of paths
(`List String`), process-global state (the `sync.Once`-guarded template
data, the temp-dir allocator) lives in an explicit state record `St`,
and external collaborators (pubspec, config, build output paths, the
shell) are an environment record `Env`.  `os.Exit(1)` is modelled as an
aborting `Except` result that carries the state at the moment of the
exit; a Go `panic` is modelled the same way but, unlike `os.Exit`,
unwinds through `defer`red cleanups (`isPanic` distinguishes the two,
because `os.Exit` terminates the process without running deferred
functions while a panic runs them during unwinding).
Observable side effects that do not change directory existence
(copies, chmod, script runs) are recorded in an event trace.
-/

namespace Hover

/-! ## Model of Go `text/template` with `Option("missingkey=error")`,
as used by `executeStringTemplate` (packaging.go lines 243-255).
Only the fragment of the template language the program relies on is
modelled: literal text and field references written as two opening
braces, a dot, a key, and two closing braces.  A reference to a key
absent from the context makes `Execute` return an error (strict mode),
which the Go code turns into a `panic`; a parse failure is logged and
the process exits. -/

inductive TmplItem where
  | lit (s : List Char)
  | ref (key : List Char)
deriving DecidableEq, Repr

def consLit (c : Char) : List TmplItem → List TmplItem
  | .lit s :: tl => .lit (c :: s) :: tl
  | l => .lit [c] :: l

mutual

def parseTmpl : List Char → Option (List TmplItem)
  | [] => some []
  | '{' :: '{' :: rest =>
    match rest with
    | '.' :: r2 => parseKey r2 []
    | _ => none
  | c :: rest => (parseTmpl rest).map (consLit c)

def parseKey : List Char → List Char → Option (List TmplItem)
  | [], _ => none
  | '}' :: '}' :: rest, acc => (parseTmpl rest).map (fun items => .ref acc.reverse :: items)
  | '}' :: _, _ => none
  | c :: rest, acc => parseKey rest (c :: acc)

end

/-- Lookup in the template context.  Go uses a `map[string]string`; the
model uses an association list whose construction keeps keys distinct. -/
def lookupCtx (data : List (String × String)) (k : String) : Option String :=
  (data.find? (fun p => p.1 == k)).map (fun p => p.2)

/-- The distinct ways the Go code terminates early: every `os.Exit(1)`
call site and the two runtime panics (`template.Execute` error at line
252, index-out-of-range on a format name without a hyphen). -/
inductive ExitReason where
  | alreadyInitialized (format : String)
  | notInitialized (format : String)
  | templateParse
  | missingKey (key : String)
  | indexOutOfRange
  | scriptFailed (dir command : String)
deriving DecidableEq, Repr

/-- A Go `panic` (as opposed to `os.Exit`) unwinds the stack and runs
`defer`red functions.  `executeStringTemplate` panics on an `Execute`
error (line 252) and indexing `[1]` into a one-element slice panics;
every other failure path calls `os.Exit(1)`, which runs no defers. -/
def isPanic : ExitReason → Bool
  | .missingKey _ => true
  | .indexOutOfRange => true
  | _ => false

def renderItems : List TmplItem → List (String × String) → Except ExitReason String
  | [], _ => .ok ""
  | .lit s :: rest, data => (renderItems rest data).map (fun r => String.mk s ++ r)
  | .ref k :: rest, data =>
    match lookupCtx data (String.mk k) with
    | none => .error (.missingKey (String.mk k))
    | some v => (renderItems rest data).map (fun r => v ++ r)

/-- packaging.go lines 243-255: parse the template (parse failure is
logged and exits, line 247) and execute it against `data` (an execute
error, in particular a missing key under `missingkey=error`, panics,
line 252). -/
def executeStringTemplate (t : String) (data : List (String × String)) : Except ExitReason String :=
  match parseTmpl t.data with
  | none => .error .templateParse
  | some items => renderItems items data

/-- Keys referenced by a parsed template. -/
def refKeys : List TmplItem → List String
  | [] => []
  | .lit _ :: rest => refKeys rest
  | .ref k :: rest => String.mk k :: refKeys rest

/-- Substitution of one parsed item, for stating what a fully
substituted output is. -/
def resolveItem (data : List (String × String)) : TmplItem → String
  | .lit s => String.mk s
  | .ref k => (lookupCtx data (String.mk k)).getD ""

/-! ## Models of `strings.Split` / `strings.SplitN`.
The program only ever splits on the one-character separators "." and
"-", so the split is modelled on a single character. -/

/-- Go `strings.Split(s, sep)` for a one-character `sep`: always
returns at least one (possibly empty) piece. -/
def goSplitChar (c : Char) : List Char → List (List Char)
  | [] => [[]]
  | x :: xs =>
    if x = c then [] :: goSplitChar c xs
    else
      match goSplitChar c xs with
      | [] => [[x]]
      | y :: ys => (x :: y) :: ys

/-- Go `strings.Split(s, sep)[0]` (used at lines 83, 146, 169; the
index is always in range because `Split` never returns an empty
slice - the `[]` case below is unreachable). -/
def goSplitFirst (c : Char) (s : String) : String :=
  match goSplitChar c s.data with
  | [] => ""
  | x :: _ => String.mk x

/-- Go `strings.SplitN(s, sep, 2)` for a one-character `sep`:
everything up to the first separator, then the (unsplit) remainder;
a single piece when the separator does not occur. -/
def goSplitN2 (c : Char) : List Char → List (List Char)
  | [] => [[]]
  | x :: xs =>
    if x = c then [[], xs]
    else
      match goSplitN2 c xs with
      | [] => [[x]]
      | y :: ys => (x :: y) :: ys

/-! ## Environment and state -/

/-- External collaborators of packaging.go, all read-only:
`pubspec.GetPubSpec()`, `config.GetConfig()`,
`androidmanifest.AndroidOrganizationName()`, `runtime.GOARCH`,
`build.OutputDirectoryPath`, and the shell (`bash -c`), whose exit
status for a given working directory and command is `scriptExitOk`. -/
structure Env where
  pubspecName : String
  description : String
  author : String
  organizationName : String
  arch : String
  applicationName : String → String
  executableName : String → String
  packageName : String → String
  license : String
  outputDirectoryPath : String → String
  scriptExitOk : String → String → Bool

/-- Observable actions of one process run, recorded in order.  Copies,
chmod and the build-file generator hook are external side effects whose
success is modelled (their failure paths in the Go code also just call
`os.Exit`, and no claim is about them). -/
inductive Ev where
  | allocTmp (path : String)
  | copyAsset (src dest : String)
  | copyBuildOutput (src dest : String)
  | copyDepOutput (src dest : String)
  | copyTemplateDir (src dest : String)
  | generateBuildFiles (packageName path : String)
  | chmod (path : String)
  | removeOutputDir (path : String)
  | runScript (dir command : String)
  | copyArtifact (src dest : String)
  | removeTmp (path : String)
deriving DecidableEq, Repr

/-- Process state: the filesystem as the set of existing paths, the
temp-dir freshness counter (`ioutil.TempDir` returns a fresh name each
call), the `sync.Once`-guarded global `templateData` (packaging.go
lines 75-76), and the event trace. -/
structure St where
  fs : List String
  nextTmp : Nat
  templateData : Option (List (String × String))
  events : List Ev
deriving DecidableEq, Repr

def statExists (s : St) (p : String) : Bool := s.fs.contains p

def insertPath (p : String) (s : St) : St := { s with fs := p :: s.fs }

def removePath (p : String) (s : St) : St :=
  { s with fs := s.fs.filter (fun q => q != p) }

def appendEv (e : Ev) (s : St) : St := { s with events := s.events ++ [e] }

/-! ## Paths -/

/-- Modelled from the spec: `build.BuildPath` (internal/build is not
under src/); the log message at line 145 ("go/packaging/... has been
created") fixes it to "go". -/
def buildPath : String := "go"

/-- packaging.go line 25. -/
def packagingPath : String := buildPath ++ "/packaging"

/-- packaging.go lines 27-34 (`filepath.Abs` is modelled as the
identity: the claims only compare paths for equality and the model
resolves no relative segments). -/
def packagingFormatPath (packagingFormat : String) : String :=
  packagingPath ++ "/" ++ packagingFormat

/-- `ioutil.TempDir("", "hover-build-"+projectName+"-"+packagingFormat)`
prefix, rooted in the system temp directory. -/
def tmpMarker : String := "/tmp/hover-build-"

/-- The fresh directory name `ioutil.TempDir` returns for the n-th
allocation of the process (freshness is what matters; the random
suffix is modelled by the counter). -/
def tmpDirName (projectName packagingFormat : String) (n : Nat) : String :=
  tmpMarker ++ projectName ++ "-" ++ packagingFormat ++ "-" ++ toString n

/-- A path under the system temp root that `ioutil.TempDir` draws
from.  Project paths (`go/...`, build output directories) are disjoint
from it. -/
def isTmpPath (p : String) : Bool := tmpMarker.data.isPrefixOf p.data

/-! ## The packaging task (packaging.go lines 99-119) -/

/-- `packagingTask` (lines 99-119).  `dependsOn` is a
`map[*packagingTask]string`; Go map iteration order is unspecified, the
model fixes it as the list order.  The `generateBuildFiles` function
pointer is modelled by whether it is non-nil (`hasGenerateBuildFiles`);
its invocation is an external side effect recorded as an event. -/
inductive PackagingTask where
  | mk
    (packagingFormatName : String)
    (dependsOn : List (PackagingTask × String))
    (templateFiles : List (String × String))
    (executableFiles : List String)
    (linuxDesktopFileExecutablePath : String)
    (linuxDesktopFileIconPath : String)
    (hasGenerateBuildFiles : Bool)
    (buildOutputDirectory : String)
    (packagingScriptTemplate : String)
    (outputFileExtension : String)
    (outputFileContainsVersion : Bool)
    (outputFileUsesApplicationName : Bool)
    (skipAssertInitialized : Bool)

def PackagingTask.packagingFormatName : PackagingTask → String
  | .mk v _ _ _ _ _ _ _ _ _ _ _ _ => v

def PackagingTask.dependsOn : PackagingTask → List (PackagingTask × String)
  | .mk _ v _ _ _ _ _ _ _ _ _ _ _ => v

def PackagingTask.templateFiles : PackagingTask → List (String × String)
  | .mk _ _ v _ _ _ _ _ _ _ _ _ _ => v

def PackagingTask.executableFiles : PackagingTask → List String
  | .mk _ _ _ v _ _ _ _ _ _ _ _ _ => v

def PackagingTask.linuxDesktopFileExecutablePath : PackagingTask → String
  | .mk _ _ _ _ v _ _ _ _ _ _ _ _ => v

def PackagingTask.linuxDesktopFileIconPath : PackagingTask → String
  | .mk _ _ _ _ _ v _ _ _ _ _ _ _ => v

def PackagingTask.hasGenerateBuildFiles : PackagingTask → Bool
  | .mk _ _ _ _ _ _ v _ _ _ _ _ _ => v

def PackagingTask.buildOutputDirectory : PackagingTask → String
  | .mk _ _ _ _ _ _ _ v _ _ _ _ _ => v

def PackagingTask.packagingScriptTemplate : PackagingTask → String
  | .mk _ _ _ _ _ _ _ _ v _ _ _ _ => v

def PackagingTask.outputFileExtension : PackagingTask → String
  | .mk _ _ _ _ _ _ _ _ _ v _ _ _ => v

def PackagingTask.outputFileContainsVersion : PackagingTask → Bool
  | .mk _ _ _ _ _ _ _ _ _ _ v _ _ => v

def PackagingTask.outputFileUsesApplicationName : PackagingTask → Bool
  | .mk _ _ _ _ _ _ _ _ _ _ _ v _ => v

def PackagingTask.skipAssertInitialized : PackagingTask → Bool
  | .mk _ _ _ _ _ _ _ _ _ _ _ _ v => v

/-! ## Operations -/

/-- packaging.go lines 36-46: fail (exit) if a file or directory with
the format path already exists, otherwise create the directory
(`os.MkdirAll` failure also exits; directory creation is modelled as
infallible). -/
def createPackagingFormatDirectory (packagingFormat : String) (s : St) :
    Except (ExitReason × St) St :=
  if statExists s (packagingFormatPath packagingFormat) then
    .error (.alreadyInitialized packagingFormat, s)
  else
    .ok (insertPath (packagingFormatPath packagingFormat) s)

/-- packaging.go lines 48-55: allocate a fresh temporary build
directory (`ioutil.TempDir` failure exits; allocation is modelled as
infallible and fresh via the counter). -/
def getTemporaryBuildDirectory (projectName packagingFormat : String) (s : St) :
    String × St :=
  let p := tmpDirName projectName packagingFormat s.nextTmp
  (p, { s with
          fs := p :: s.fs
          nextTmp := s.nextTmp + 1
          events := s.events ++ [Ev.allocTmp p] })

/-- packaging.go lines 57-73: run `bash -c command` with working
directory `path`; a non-zero exit logs diagnostics (naming `path` for
manual inspection) and calls `os.Exit(1)`. -/
def runPackaging (env : Env) (path command : String) (s : St) :
    Except (ExitReason × St) St :=
  let s := appendEv (.runScript path command) s
  if env.scriptExitOk path command then .ok s
  else .error (.scriptFailed path command, s)

/-- packaging.go lines 80-92: the eleven entries assigned to the
global `templateData` map inside `once.Do` (a Go map literal; keys are
distinct, so the association list has the same lookup behaviour). -/
def baseTemplateData (env : Env) (projectName buildVersion : String) :
    List (String × String) :=
  [("projectName", projectName),
   ("version", buildVersion),
   ("release", goSplitFirst '.' buildVersion),
   ("arch", env.arch),
   ("description", env.description),
   ("organizationName", env.organizationName),
   ("author", env.author),
   ("applicationName", env.applicationName projectName),
   ("executableName", env.executableName projectName),
   ("packageName", env.packageName projectName),
   ("license", env.license)]

/-- packaging.go lines 79-95: the body of `once.Do` - build the base
map, then render `iconPath` against it, then render `executablePath`
against the map that already holds `iconPath` (two-pass resolution). -/
def computeTemplateData (env : Env) (t : PackagingTask)
    (projectName buildVersion : String) :
    Except ExitReason (List (String × String)) :=
  let d := baseTemplateData env projectName buildVersion
  match executeStringTemplate t.linuxDesktopFileIconPath d with
  | .error r => .error r
  | .ok iconPath =>
    let d := d ++ [("iconPath", iconPath)]
    match executeStringTemplate t.linuxDesktopFileExecutablePath d with
    | .error r => .error r
    | .ok executablePath => .ok (d ++ [("executablePath", executablePath)])

/-- packaging.go lines 78-97: `getTemplateData` returns the global,
computing it only on the first call of the process (`once.Do`);
arguments of later calls are ignored. -/
def PackagingTask.getTemplateData (env : Env) (t : PackagingTask)
    (projectName buildVersion : String) (s : St) :
    Except (ExitReason × St) (List (String × String) × St) :=
  match s.templateData with
  | some d => .ok (d, s)
  | none =>
    match computeTemplateData env t projectName buildVersion with
    | .error r => .error (r, s)
    | .ok d => .ok (d, { s with templateData := some d })

/-- packaging.go lines 238-241: existence check on the format's
configuration directory. -/
def PackagingTask.IsInitialized (t : PackagingTask) (s : St) : Bool :=
  statExists s (packagingFormatPath t.packagingFormatName)

/-- packaging.go lines 228-236. -/
def PackagingTask.AssertInitialized (t : PackagingTask) (s : St) :
    Except (ExitReason × St) St :=
  if t.skipAssertInitialized then .ok s
  else if t.IsInitialized s then .ok s
  else .error (.notInitialized t.packagingFormatName, s)

/-- packaging.go lines 121-123:
`strings.SplitN(t.packagingFormatName, "-", 2)[1]`.  Indexing `[1]`
into a one-element slice is a runtime panic, modelled as `none`. -/
def PackagingTask.Name (t : PackagingTask) : Option String :=
  ((goSplitN2 '-' t.packagingFormatName.data)[1]?).map String.mk

/-- packaging.go lines 136-144: copy each declared template asset to
its destination below the configuration directory (`os.MkdirAll` of the
parent and `fileutils.CopyAsset` failures exit; both are modelled as
infallible - the asset box is an external collaborator). -/
def copyTemplateFiles (format : String) :
    List (String × String) → St → St
  | [], s => s
  | (sourceFile, destinationFile) :: rest, s =>
    let dest := packagingFormatPath format ++ "/" ++ destinationFile
    copyTemplateFiles format rest
      (appendEv (.copyAsset sourceFile dest) (insertPath dest s))

/-- packaging.go lines 133-150: the per-task part of `init` after the
dependency recursion - scaffold when uninitialized, otherwise fail
unless the already-initialized failure is suppressed. -/
def initOwn (t : PackagingTask) (ignoreAlreadyExists : Bool) (s : St) :
    Except (ExitReason × St) St :=
  if ¬ t.IsInitialized s then
    match createPackagingFormatDirectory t.packagingFormatName s with
    | .error e => .error e
    | .ok s => .ok (copyTemplateFiles t.packagingFormatName t.templateFiles s)
  else if ¬ ignoreAlreadyExists then
    .error (.alreadyInitialized t.packagingFormatName, s)
  else .ok s

mutual

/-- packaging.go lines 129-151: `init(ignoreAlreadyExists)` -
recursively initialize every dependency with the failure suppressed,
then run the task's own scaffolding. -/
def initTask : PackagingTask → Bool → St → Except (ExitReason × St) St
  | t@(.mk _ deps _ _ _ _ _ _ _ _ _ _ _), ignoreAlreadyExists, s =>
    match initDeps deps s with
    | .error e => .error e
    | .ok s => initOwn t ignoreAlreadyExists s

/-- packaging.go lines 130-132: `for task := range t.dependsOn {
task.init(true) }`. -/
def initDeps : List (PackagingTask × String) → St → Except (ExitReason × St) St
  | [], s => .ok s
  | (task, _) :: rest, s =>
    match initTask task true s with
    | .error e => .error e
    | .ok s => initDeps rest s

end

/-- packaging.go lines 125-127: `Init()` is `init(false)`. -/
def PackagingTask.Init (t : PackagingTask) (s : St) : Except (ExitReason × St) St :=
  initTask t false s

/-! ## Pack (packaging.go lines 153-226), split into its successive
statements.  Each stage is a separate definition so that its effect on
the state can be characterised once and composed. -/

/-- packaging.go line 166: the log message evaluates
`strings.Split(t.packagingFormatName, "-")[1]`, which panics
(index out of range) when the format name has no hyphen. -/
def logPackagingStage (t : PackagingTask) (s : St) : Except (ExitReason × St) St :=
  match (goSplitChar '-' t.packagingFormatName.data)[1]? with
  | none => .error (.indexOutOfRange, s)
  | some _ => .ok s

/-- packaging.go lines 168-174: when `buildOutputDirectory` is set,
copy the platform build output (platform = format-name prefix before
the first hyphen) to the rendered destination inside the temp
directory (`copy.Copy` failure exits; the copy itself is modelled as
an event). -/
def copyBuildOutputStage (env : Env) (t : PackagingTask)
    (buildVersion projectName tmpPath : String) (s : St) :
    Except (ExitReason × St) St :=
  if t.buildOutputDirectory ≠ "" then
    match t.getTemplateData env projectName buildVersion s with
    | .error e => .error e
    | .ok (d, s) =>
      match executeStringTemplate (tmpPath ++ "/" ++ t.buildOutputDirectory) d with
      | .error r => .error (r, s)
      | .ok dest =>
        .ok (appendEv
          (.copyBuildOutput
            (env.outputDirectoryPath (goSplitFirst '-' t.packagingFormatName)) dest)
          s)
  else .ok s

/-- packaging.go lines 175-181: copy every dependency's packaged
output into its declared destination inside the temp directory. -/
def copyDepOutputsStage (env : Env) (tmpPath : String) :
    List (PackagingTask × String) → St → St
  | [], s => s
  | (task, destination) :: rest, s =>
    copyDepOutputsStage env tmpPath rest
      (appendEv
        (.copyDepOutput (env.outputDirectoryPath task.packagingFormatName)
          (tmpPath ++ "/" ++ destination))
        s)

/-- packaging.go line 182: `fileutils.CopyTemplateDir` of the
configuration directory into the temp directory, rendering against the
template data (the collaborator's own internal rendering is not
modelled; the call forces the template data to be computed). -/
def copyTemplateDirStage (env : Env) (t : PackagingTask)
    (buildVersion projectName tmpPath : String) (s : St) :
    Except (ExitReason × St) St :=
  match t.getTemplateData env projectName buildVersion s with
  | .error e => .error e
  | .ok (_, s) =>
    .ok (appendEv
      (.copyTemplateDir (packagingFormatPath t.packagingFormatName) tmpPath) s)

/-- packaging.go lines 183-186: the optional dynamic build-file
generator hook, invoked with the resolved package name and the temp
directory. -/
def generateStage (env : Env) (t : PackagingTask)
    (projectName tmpPath : String) (s : St) : St :=
  if t.hasGenerateBuildFiles then
    appendEv (.generateBuildFiles (env.packageName projectName) tmpPath) s
  else s

/-- packaging.go lines 188-194: render each executable file path and
mark it executable (`os.Chmod` failure exits; the chmod itself is
modelled as an event). -/
def chmodStage (env : Env) (t : PackagingTask)
    (buildVersion projectName tmpPath : String) :
    List String → St → Except (ExitReason × St) St
  | [], s => .ok s
  | file :: rest, s =>
    match t.getTemplateData env projectName buildVersion s with
    | .error e => .error e
    | .ok (d, s) =>
      match executeStringTemplate (tmpPath ++ "/" ++ file) d with
      | .error r => .error (r, s)
      | .ok p =>
        chmodStage env t buildVersion projectName tmpPath rest
          (appendEv (.chmod p) s)

/-- packaging.go lines 196-201: delete the format's pre-existing
output directory (`os.RemoveAll`; its error branch never fires in the
set model). -/
def removeOutputDirStage (env : Env) (t : PackagingTask) (s : St) : St :=
  appendEv (.removeOutputDir (env.outputDirectoryPath t.packagingFormatName))
    (removePath (env.outputDirectoryPath t.packagingFormatName) s)

/-- packaging.go lines 203-204: render the packaging script and run it
in the temp directory. -/
def scriptStage (env : Env) (t : PackagingTask)
    (buildVersion projectName tmpPath : String) (s : St) :
    Except (ExitReason × St) St :=
  match t.getTemplateData env projectName buildVersion s with
  | .error e => .error e
  | .ok (d, s) =>
    match executeStringTemplate t.packagingScriptTemplate d with
    | .error r => .error (r, s)
    | .ok packagingScript => runPackaging env tmpPath packagingScript s

/-- packaging.go lines 205-219: the final artifact file name. -/
def outputFileName (t : PackagingTask)
    (applicationName packageName buildVersion : String) : String :=
  let n := if t.outputFileUsesApplicationName then applicationName else packageName
  let n :=
    if t.outputFileContainsVersion then
      n ++ (if t.outputFileUsesApplicationName then " " else "-") ++ buildVersion
    else n
  n ++ "." ++ t.outputFileExtension

/-- packaging.go lines 205-225: compute the artifact name, render the
output file path, and copy the artifact from the temp directory to the
format's output directory (`copy.Copy` creates the destination
directory; its failure exits and is modelled as infallible). -/
def artifactStage (env : Env) (t : PackagingTask)
    (buildVersion projectName tmpPath : String) (s : St) :
    Except (ExitReason × St) St :=
  let ofn := outputFileName t (env.applicationName projectName)
    (env.packageName projectName) buildVersion
  match t.getTemplateData env projectName buildVersion s with
  | .error e => .error e
  | .ok (d, s) =>
    match executeStringTemplate
        (env.outputDirectoryPath t.packagingFormatName ++ "/" ++ ofn) d with
    | .error r => .error (r, s)
    | .ok outputFilePath =>
      .ok (appendEv (.copyArtifact (tmpPath ++ "/" ++ ofn) outputFilePath)
        (insertPath outputFilePath
          (insertPath (env.outputDirectoryPath t.packagingFormatName) s)))

/-- packaging.go lines 166-225: everything `Pack` does after
allocating the temp directory, in statement order. -/
def packInTmp (env : Env) (t : PackagingTask)
    (buildVersion projectName tmpPath : String) (s : St) :
    Except (ExitReason × St) St :=
  match logPackagingStage t s with
  | .error e => .error e
  | .ok s =>
  match copyBuildOutputStage env t buildVersion projectName tmpPath s with
  | .error e => .error e
  | .ok s =>
  let s := copyDepOutputsStage env tmpPath t.dependsOn s
  match copyTemplateDirStage env t buildVersion projectName tmpPath s with
  | .error e => .error e
  | .ok s =>
  let s := generateStage env t projectName tmpPath s
  match chmodStage env t buildVersion projectName tmpPath t.executableFiles s with
  | .error e => .error e
  | .ok s =>
  let s := removeOutputDirStage env t s
  match scriptStage env t buildVersion projectName tmpPath s with
  | .error e => .error e
  | .ok s => artifactStage env t buildVersion projectName tmpPath s

/-- The `defer`red `os.RemoveAll(tmpPath)` of packaging.go lines
159-165 (its error branch never fires in the set model). -/
def removeTmpStep (p : String) (s : St) : St :=
  appendEv (.removeTmp p) (removePath p s)

/-- packaging.go lines 157-226: the task's own part of `Pack` -
resolve the project name, allocate the temp directory, register the
deferred cleanup, and run the remaining statements.  The deferred
`os.RemoveAll` runs on normal return and during panic unwinding, but
NOT when the process terminates via `os.Exit(1)` (Go defers do not run
on `os.Exit`). -/
def packOwnSteps (env : Env) (t : PackagingTask) (buildVersion : String)
    (s : St) : Except (ExitReason × St) St :=
  let projectName := env.pubspecName
  let alloc := getTemporaryBuildDirectory projectName t.packagingFormatName s
  let tmpPath := alloc.1
  match packInTmp env t buildVersion projectName tmpPath alloc.2 with
  | .ok s2 => .ok (removeTmpStep tmpPath s2)
  | .error (r, s2) =>
    if isPanic r then .error (r, removeTmpStep tmpPath s2)
    else .error (r, s2)

mutual

/-- packaging.go lines 153-226: `Pack(buildVersion)` - recursively
pack every dependency first (same version), then run the task's own
steps. -/
def PackagingTask.Pack (env : Env) :
    PackagingTask → String → St → Except (ExitReason × St) St
  | t@(.mk _ deps _ _ _ _ _ _ _ _ _ _ _), buildVersion, s =>
    match packDeps env deps buildVersion s with
    | .error e => .error e
    | .ok s => packOwnSteps env t buildVersion s

/-- packaging.go lines 154-156: `for task := range t.dependsOn {
task.Pack(buildVersion) }`. -/
def packDeps (env : Env) :
    List (PackagingTask × String) → String → St → Except (ExitReason × St) St
  | [], _, s => .ok s
  | (task, _) :: rest, buildVersion, s =>
    match task.Pack env buildVersion s with
    | .error e => .error e
    | .ok s => packDeps env rest buildVersion s

end

/-! ## Helper notions for the theorems -/

/-- The state a computation ends in, whether it returns or aborts. -/
def resSt : Except (ExitReason × St) St → St
  | .ok s => s
  | .error (_, s) => s

/-- The event trace only ever grows. -/
def evExt (s s' : St) : Prop := ∃ es, s'.events = s.events ++ es

/-- Failures raised by the template renderer (parse failure or missing
key), as opposed to a script failure or an index panic. -/
def isTemplateErr (r : ExitReason) : Prop :=
  r = .templateParse ∨ ∃ k, r = .missingKey k

/-- A claim-side reading of "fully substituted": every parsed item
resolved against the context and concatenated. -/
def fullRender (data : List (String × String)) (items : List TmplItem) : String :=
  (items.map (resolveItem data)).foldr (fun a b => a ++ b) ""

/-- Temp directories present at the end of a step were either already
present at its start or were inserted by the artifact copy (and then
the copy is in the trace). -/
def tmpB (s s' : St) : Prop :=
  ∀ p, isTmpPath p = true → p ∈ s'.fs →
    p ∈ s.fs ∨ ∃ a, Ev.copyArtifact a p ∈ s'.events

/-! ## Concrete fixtures used as test inputs for the theorems -/

/-- A concrete collaborator environment in which every packaging
script exits zero. -/
def env0 : Env where
  pubspecName := "proj"
  description := "desc"
  author := "auth"
  organizationName := "org"
  arch := "amd64"
  applicationName := fun _ => "MyApp"
  executableName := fun _ => "exe"
  packageName := fun _ => "my_app"
  license := "MIT"
  outputDirectoryPath := fun f => "go/build/outputs/" ++ f
  scriptExitOk := fun _ _ => true

/-- The same environment with a packaging script that always exits
non-zero (the fault-injected script of the spec's test). -/
def env1 : Env :=
  { env0 with scriptExitOk := fun _ _ => false }

/-- A task with no dependencies, no template files, no executables and
a plain (reference-free) packaging script. -/
def taskC : PackagingTask :=
  .mk "linux-c" [] [] [] "" "" false "" "pack.sh" "deb" true false false

/-- Depends on `taskC`. -/
def taskB : PackagingTask :=
  .mk "linux-b" [(taskC, "depc")] [] [] "" "" false "" "pack.sh" "deb" true false false

/-- Depends on `taskB` (which depends on `taskC`): the A - B - C chain. -/
def taskA : PackagingTask :=
  .mk "linux-a" [(taskB, "depb")] [] [] "" "" false "" "pack.sh" "deb" true false false

/-- A task whose format name has no hyphen (for the `Name` panic). -/
def taskNoHyphen : PackagingTask :=
  .mk "weird" [] [] [] "" "" false "" "pack.sh" "deb" true false false

/-- A task marked `skipAssertInitialized`. -/
def taskSkip : PackagingTask :=
  .mk "linux-s" [] [] [] "" "" false "" "pack.sh" "deb" true false true

/-- The darwin-dmg-style naming configuration of the spec's example
(`outputFileUsesApplicationName`, version in the name, extension dmg). -/
def taskDmgApp : PackagingTask :=
  .mk "darwin-dmg" [] [] [] "" "" false "" "pack.sh" "dmg" true true false

/-- The same but named by package name. -/
def taskDmgPkg : PackagingTask :=
  .mk "darwin-dmg" [] [] [] "" "" false "" "pack.sh" "dmg" true false false

/-- Initial state: task A initialized, a stale output artifact
directory for A, nothing else. -/
def st0 : St where
  fs := ["go/packaging/linux-a", "go/build/outputs/linux-a"]
  nextTmp := 0
  templateData := none
  events := []

/-- Initial state with an empty filesystem. -/
def stEmpty : St where
  fs := []
  nextTmp := 0
  templateData := none
  events := []

/-- A template with one reference: the characters of "a{{.k}}b"
(built from characters to keep the braces explicit). -/
def tmplEx : String := String.mk ['a', '{', '{', '.', 'k', '}', '}', 'b']

/-- A malformed template: an unclosed action. -/
def tmplBad : String := String.mk ['a', '{', '{', '.', 'k']

/-- The temp directory the first allocation of a `taskC` run gets. -/
def tmpC0 : String := "/tmp/hover-build-proj-linux-c-0"

/-- Final state of a successful `taskC` pack from `st0` under `env0`. -/
def stCsucc : St := resSt (PackagingTask.Pack env0 taskC "1.0.0" st0)

/-- State at the `os.Exit(1)` of a `taskC` pack whose script fails. -/
def stCfail : St := resSt (PackagingTask.Pack env1 taskC "1.0.0" st0)

/-- Final state of packing the A - B - C chain from `st0` under `env0`. -/
def stAfin : St := resSt (PackagingTask.Pack env0 taskA "1.0.0" st0)

/-- The full event trace of packing the chain: every step of C (through
its script run and artifact copy), then every step of B, then A's own
steps. -/
def chainEvents : List Ev :=
  [.allocTmp "/tmp/hover-build-proj-linux-c-0",
   .copyTemplateDir "go/packaging/linux-c" "/tmp/hover-build-proj-linux-c-0",
   .removeOutputDir "go/build/outputs/linux-c",
   .runScript "/tmp/hover-build-proj-linux-c-0" "pack.sh",
   .copyArtifact "/tmp/hover-build-proj-linux-c-0/my_app-1.0.0.deb"
     "go/build/outputs/linux-c/my_app-1.0.0.deb",
   .removeTmp "/tmp/hover-build-proj-linux-c-0",
   .allocTmp "/tmp/hover-build-proj-linux-b-1",
   .copyDepOutput "go/build/outputs/linux-c" "/tmp/hover-build-proj-linux-b-1/depc",
   .copyTemplateDir "go/packaging/linux-b" "/tmp/hover-build-proj-linux-b-1",
   .removeOutputDir "go/build/outputs/linux-b",
   .runScript "/tmp/hover-build-proj-linux-b-1" "pack.sh",
   .copyArtifact "/tmp/hover-build-proj-linux-b-1/my_app-1.0.0.deb"
     "go/build/outputs/linux-b/my_app-1.0.0.deb",
   .removeTmp "/tmp/hover-build-proj-linux-b-1",
   .allocTmp "/tmp/hover-build-proj-linux-a-2",
   .copyDepOutput "go/build/outputs/linux-b" "/tmp/hover-build-proj-linux-a-2/depb",
   .copyTemplateDir "go/packaging/linux-a" "/tmp/hover-build-proj-linux-a-2",
   .removeOutputDir "go/build/outputs/linux-a",
   .runScript "/tmp/hover-build-proj-linux-a-2" "pack.sh",
   .copyArtifact "/tmp/hover-build-proj-linux-a-2/my_app-1.0.0.deb"
     "go/build/outputs/linux-a/my_app-1.0.0.deb",
   .removeTmp "/tmp/hover-build-proj-linux-a-2"]

theorem evExt_refl (s : St) : evExt s s := ⟨[], by simp⟩

theorem evExt_trans {a b c : St} (h1 : evExt a b) (h2 : evExt b c) : evExt a c := by
  obtain ⟨e1, he1⟩ := h1
  obtain ⟨e2, he2⟩ := h2
  exact ⟨e1 ++ e2, by simp [he2, he1]⟩

theorem evExt_appendEv (e : Ev) (s : St) : evExt s (appendEv e s) :=
  ⟨[e], rfl⟩

theorem mem_of_evExt {s s' : St} {e : Ev} (h : evExt s s') (hm : e ∈ s.events) :
    e ∈ s'.events := by
  obtain ⟨es, hes⟩ := h
  exact hes ▸ List.mem_append_left es hm

/-! ## Template renderer lemmas (claim C4) -/

theorem renderItems_ok {items : List TmplItem} {data : List (String × String)}
    {out : String} (h : renderItems items data = .ok out) :
    (∀ k ∈ refKeys items, (lookupCtx data k).isSome = true) ∧
      out = fullRender data items := by
  induction items generalizing out with
  | nil =>
    simp only [renderItems] at h
    cases h
    exact ⟨by simp [refKeys], by simp [fullRender]⟩
  | cons item rest ih =>
    cases item with
    | lit s =>
      simp only [renderItems] at h
      cases hr : renderItems rest data with
      | error r => rw [hr] at h; cases h
      | ok r =>
        rw [hr] at h
        cases h
        obtain ⟨hkeys, hout⟩ := ih hr
        refine ⟨?_, ?_⟩
        · intro k hk
          simp only [refKeys] at hk
          exact hkeys k hk
        · simp [fullRender, resolveItem, hout]
    | ref k =>
      simp only [renderItems] at h
      cases hl : lookupCtx data (String.mk k) with
      | none => rw [hl] at h; cases h
      | some v =>
        rw [hl] at h
        cases hr : renderItems rest data with
        | error r => rw [hr] at h; cases h
        | ok r =>
          rw [hr] at h
          cases h
          obtain ⟨hkeys, hout⟩ := ih hr
          refine ⟨?_, ?_⟩
          · intro k2 hk2
            simp only [refKeys, List.mem_cons] at hk2
            rcases hk2 with hk2 | hk2
            · subst hk2; simp [hl]
            · exact hkeys k2 hk2
          · simp [fullRender, resolveItem, hl, hout]

theorem renderItems_missing {items : List TmplItem} {data : List (String × String)}
    {r : ExitReason} (h : renderItems items data = .error r) :
    ∃ k, r = .missingKey k := by
  induction items with
  | nil => simp [renderItems] at h
  | cons item rest ih =>
    cases item with
    | lit s =>
      simp only [renderItems] at h
      cases hr : renderItems rest data with
      | error r2 => rw [hr] at h; cases h; exact ih hr
      | ok r2 => rw [hr] at h; cases h
    | ref k =>
      simp only [renderItems] at h
      cases hl : lookupCtx data (String.mk k) with
      | none => rw [hl] at h; cases h; exact ⟨String.mk k, rfl⟩
      | some v =>
        rw [hl] at h
        cases hr : renderItems rest data with
        | error r2 => rw [hr] at h; cases h; exact ih hr
        | ok r2 => rw [hr] at h; cases h

theorem executeStringTemplate_err {t : String} {data : List (String × String)}
    {r : ExitReason} (h : executeStringTemplate t data = .error r) :
    isTemplateErr r := by
  unfold executeStringTemplate at h
  cases hp : parseTmpl t.data with
  | none => rw [hp] at h; cases h; exact Or.inl rfl
  | some items => rw [hp] at h; exact Or.inr (renderItems_missing h)

theorem isTemplateErr_ne_scriptFailed {r : ExitReason} (h : isTemplateErr r) :
    ∀ d c, r ≠ .scriptFailed d c := by
  intro d c heq
  rcases h with h | ⟨k, h⟩ <;> subst heq <;> cases h

/-! ## Split lemmas (claims C8 and C9) -/

theorem goSplitChar_head (c : Char) (l : List Char) :
    ∃ ys, goSplitChar c l = (l.takeWhile (fun a => a != c)) :: ys := by
  induction l with
  | nil => exact ⟨[], rfl⟩
  | cons x xs ih =>
    by_cases hx : x = c
    · subst hx
      refine ⟨goSplitChar x xs, ?_⟩
      simp [goSplitChar, List.takeWhile_cons]
    · obtain ⟨ys, hys⟩ := ih
      refine ⟨ys, ?_⟩
      have hbne : (x != c) = true := bne_iff_ne.mpr hx
      simp [goSplitChar, hx, hys, List.takeWhile_cons, hbne]

theorem goSplitFirst_eq_takeWhile (c : Char) (s : String) :
    goSplitFirst c s = String.mk (s.data.takeWhile (fun a => a != c)) := by
  obtain ⟨ys, hys⟩ := goSplitChar_head c s.data
  simp [goSplitFirst, hys]

theorem goSplitN2_no_sep {c : Char} {l : List Char} (h : c ∉ l) :
    goSplitN2 c l = [l] := by
  induction l with
  | nil => rfl
  | cons x xs ih =>
    have hx : ¬ x = c := fun he => h (he ▸ List.mem_cons_self x xs)
    have hxs : c ∉ xs := fun hm => h (List.mem_cons_of_mem x hm)
    simp [goSplitN2, hx, ih hxs]

theorem goSplitN2_split {c : Char} {pre post : List Char} (h : c ∉ pre) :
    goSplitN2 c (pre ++ c :: post) = [pre, post] := by
  induction pre with
  | nil => simp [goSplitN2]
  | cons x xs ih =>
    have hx : ¬ x = c := fun he => h (he ▸ List.mem_cons_self x xs)
    have hxs : c ∉ xs := fun hm => h (List.mem_cons_of_mem x hm)
    simp [goSplitN2, hx, ih hxs]

/-! ## Path lemmas -/

theorem string_eq_of_data {s t : String} (h : s.data = t.data) : s = t := by
  cases s; cases t; exact congrArg String.mk h

theorem isTmpPath_tmpDirName (projectName packagingFormat : String) (n : Nat) :
    isTmpPath (tmpDirName projectName packagingFormat n) = true := by
  have hdata : (tmpDirName projectName packagingFormat n).data =
      tmpMarker.data ++ (projectName ++ "-" ++ packagingFormat ++ "-" ++ toString n).data := by
    simp [tmpDirName, String.data_append]
  simp only [isTmpPath, hdata]
  exact List.isPrefixOf_iff_prefix.mpr
    (List.prefix_append tmpMarker.data _)

theorem ne_of_isTmpPath {p q : String} (hp : isTmpPath p = true)
    (hq : isTmpPath q = false) : p ≠ q := by
  intro he
  rw [he, hq] at hp
  cases hp

/-! ## Primitive state-operation lemmas -/

@[simp] theorem appendEv_fs (e : Ev) (s : St) : (appendEv e s).fs = s.fs := rfl

@[simp] theorem appendEv_events (e : Ev) (s : St) :
    (appendEv e s).events = s.events ++ [e] := rfl

@[simp] theorem insertPath_fs (p : String) (s : St) :
    (insertPath p s).fs = p :: s.fs := rfl

@[simp] theorem insertPath_events (p : String) (s : St) :
    (insertPath p s).events = s.events := rfl

@[simp] theorem removePath_fs (p : String) (s : St) :
    (removePath p s).fs = s.fs.filter (fun q => q != p) := rfl

@[simp] theorem removePath_events (p : String) (s : St) :
    (removePath p s).events = s.events := rfl

theorem mem_removePath_iff {q p : String} {s : St} :
    q ∈ (removePath p s).fs ↔ q ∈ s.fs ∧ q ≠ p := by
  simp [removePath, List.mem_filter, bne_iff_ne]

theorem mem_removeTmpStep_iff {q p : String} {s : St} :
    q ∈ (removeTmpStep p s).fs ↔ q ∈ s.fs ∧ q ≠ p := by
  simp [removeTmpStep, mem_removePath_iff]

theorem removeTmpStep_evExt (p : String) (s : St) : evExt s (removeTmpStep p s) :=
  ⟨[Ev.removeTmp p], rfl⟩

theorem getTemplateData_ok {env : Env} {t : PackagingTask} {pn v : String}
    {s : St} {d : List (String × String)} {s' : St}
    (h : PackagingTask.getTemplateData env t pn v s = .ok (d, s')) :
    s'.fs = s.fs ∧ s'.events = s.events ∧ s'.templateData = some d := by
  unfold PackagingTask.getTemplateData at h
  cases ht : s.templateData with
  | some d0 =>
    rw [ht] at h
    cases h
    exact ⟨rfl, rfl, ht⟩
  | none =>
    rw [ht] at h
    cases hc : computeTemplateData env t pn v with
    | error r => rw [hc] at h; cases h
    | ok d1 => rw [hc] at h; cases h; exact ⟨rfl, rfl, rfl⟩

theorem computeTemplateData_err {env : Env} {t : PackagingTask} {pn v : String}
    {r : ExitReason} (h : computeTemplateData env t pn v = .error r) :
    isTemplateErr r := by
  unfold computeTemplateData at h
  try simp only [] at h
  cases h1 : executeStringTemplate t.linuxDesktopFileIconPath
      (baseTemplateData env pn v) with
  | error r1 =>
    rw [h1] at h
    try simp only [] at h
    cases h
    exact executeStringTemplate_err h1
  | ok iconPath =>
    rw [h1] at h
    try simp only [] at h
    cases h2 : executeStringTemplate t.linuxDesktopFileExecutablePath
        (baseTemplateData env pn v ++ [("iconPath", iconPath)]) with
    | error r2 =>
      rw [h2] at h
      try simp only [] at h
      cases h
      exact executeStringTemplate_err h2
    | ok executablePath => rw [h2] at h; cases h

theorem getTemplateData_err {env : Env} {t : PackagingTask} {pn v : String}
    {s : St} {r : ExitReason} {s' : St}
    (h : PackagingTask.getTemplateData env t pn v s = .error (r, s')) :
    s' = s ∧ isTemplateErr r := by
  unfold PackagingTask.getTemplateData at h
  try simp only [] at h
  cases ht : s.templateData with
  | some d0 => rw [ht] at h; cases h
  | none =>
    rw [ht] at h
    try simp only [] at h
    cases hc : computeTemplateData env t pn v with
    | error r1 =>
      rw [hc] at h
      try simp only [] at h
      cases h
      exact ⟨rfl, computeTemplateData_err hc⟩
    | ok d1 => rw [hc] at h; cases h

theorem runPackaging_ok {env : Env} {p c : String} {s s' : St}
    (h : runPackaging env p c s = .ok s') :
    s'.fs = s.fs ∧ s'.events = s.events ++ [Ev.runScript p c] := by
  unfold runPackaging at h
  try simp only [] at h
  by_cases hc : env.scriptExitOk p c = true
  · rw [if_pos hc] at h; cases h; exact ⟨rfl, rfl⟩
  · rw [if_neg hc] at h; cases h

theorem runPackaging_err {env : Env} {p c : String} {s : St} {r : ExitReason}
    {s' : St} (h : runPackaging env p c s = .error (r, s')) :
    r = .scriptFailed p c ∧ s'.fs = s.fs ∧
      s'.events = s.events ++ [Ev.runScript p c] := by
  unfold runPackaging at h
  try simp only [] at h
  by_cases hc : env.scriptExitOk p c = true
  · rw [if_pos hc] at h; cases h
  · rw [if_neg hc] at h; cases h; exact ⟨rfl, rfl, rfl⟩

/-! ## Stage lemmas -/

theorem logPackagingStage_ok {t : PackagingTask} {s s' : St}
    (h : logPackagingStage t s = .ok s') : s' = s := by
  unfold logPackagingStage at h
  try simp only [] at h
  cases hx : (goSplitChar '-' t.packagingFormatName.data)[1]? with
  | none => rw [hx] at h; cases h
  | some y => rw [hx] at h; cases h; rfl

theorem logPackagingStage_err {t : PackagingTask} {s : St} {r : ExitReason}
    {s' : St} (h : logPackagingStage t s = .error (r, s')) :
    r = .indexOutOfRange ∧ s' = s := by
  unfold logPackagingStage at h
  try simp only [] at h
  cases hx : (goSplitChar '-' t.packagingFormatName.data)[1]? with
  | none => rw [hx] at h; cases h; exact ⟨rfl, rfl⟩
  | some y => rw [hx] at h; cases h

theorem copyBuildOutputStage_ok {env : Env} {t : PackagingTask}
    {v pn tp : String} {s s' : St}
    (h : copyBuildOutputStage env t v pn tp s = .ok s') :
    s'.fs = s.fs ∧ evExt s s' := by
  unfold copyBuildOutputStage at h
  try simp only [] at h
  by_cases hb : t.buildOutputDirectory ≠ ""
  · rw [if_pos hb] at h
    cases hg : t.getTemplateData env pn v s with
    | error e => rw [hg] at h; cases h
    | ok p =>
      obtain ⟨d, s0⟩ := p
      rw [hg] at h
      try simp only [] at h
      obtain ⟨hfs, hev, -⟩ := getTemplateData_ok hg
      cases hr : executeStringTemplate (tp ++ "/" ++ t.buildOutputDirectory) d with
      | error r1 => rw [hr] at h; cases h
      | ok dest =>
        rw [hr] at h
        try simp only [] at h
        cases h
        exact ⟨hfs,
          ⟨[Ev.copyBuildOutput
              (env.outputDirectoryPath (goSplitFirst '-' t.packagingFormatName)) dest],
            by simp [hev]⟩⟩
  · rw [if_neg hb] at h
    cases h
    exact ⟨rfl, evExt_refl s⟩

theorem copyBuildOutputStage_err {env : Env} {t : PackagingTask}
    {v pn tp : String} {s : St} {r : ExitReason} {s' : St}
    (h : copyBuildOutputStage env t v pn tp s = .error (r, s')) :
    s'.fs = s.fs ∧ s'.events = s.events ∧ isTemplateErr r := by
  unfold copyBuildOutputStage at h
  try simp only [] at h
  by_cases hb : t.buildOutputDirectory ≠ ""
  · rw [if_pos hb] at h
    cases hg : t.getTemplateData env pn v s with
    | error e =>
      obtain ⟨r0, s0⟩ := e
      rw [hg] at h
      try simp only [] at h
      cases h
      obtain ⟨rfl, hr⟩ := getTemplateData_err hg
      exact ⟨rfl, rfl, hr⟩
    | ok p =>
      obtain ⟨d, s0⟩ := p
      rw [hg] at h
      try simp only [] at h
      obtain ⟨hfs, hev, -⟩ := getTemplateData_ok hg
      cases hr : executeStringTemplate (tp ++ "/" ++ t.buildOutputDirectory) d with
      | error r1 =>
        rw [hr] at h
        try simp only [] at h
        cases h
        exact ⟨hfs, hev, executeStringTemplate_err hr⟩
      | ok dest => rw [hr] at h; cases h
  · rw [if_neg hb] at h; cases h

theorem copyDepOutputsStage_fs (env : Env) (tp : String)
    (l : List (PackagingTask × String)) (s : St) :
    (copyDepOutputsStage env tp l s).fs = s.fs := by
  induction l generalizing s with
  | nil => rfl
  | cons hd rest ih =>
    obtain ⟨task, destination⟩ := hd
    simp [copyDepOutputsStage, ih]

theorem copyDepOutputsStage_ev (env : Env) (tp : String)
    (l : List (PackagingTask × String)) (s : St) :
    evExt s (copyDepOutputsStage env tp l s) := by
  induction l generalizing s with
  | nil => exact evExt_refl s
  | cons hd rest ih =>
    obtain ⟨task, destination⟩ := hd
    exact evExt_trans (evExt_appendEv _ s) (ih _)

theorem copyTemplateDirStage_ok {env : Env} {t : PackagingTask}
    {v pn tp : String} {s s' : St}
    (h : copyTemplateDirStage env t v pn tp s = .ok s') :
    s'.fs = s.fs ∧ evExt s s' := by
  unfold copyTemplateDirStage at h
  try simp only [] at h
  cases hg : t.getTemplateData env pn v s with
  | error e => rw [hg] at h; cases h
  | ok p =>
    obtain ⟨d, s0⟩ := p
    rw [hg] at h
    try simp only [] at h
    cases h
    obtain ⟨hfs, hev, -⟩ := getTemplateData_ok hg
    exact ⟨hfs,
      ⟨[Ev.copyTemplateDir (packagingFormatPath t.packagingFormatName) tp],
        by simp [hev]⟩⟩

theorem copyTemplateDirStage_err {env : Env} {t : PackagingTask}
    {v pn tp : String} {s : St} {r : ExitReason} {s' : St}
    (h : copyTemplateDirStage env t v pn tp s = .error (r, s')) :
    s'.fs = s.fs ∧ s'.events = s.events ∧ isTemplateErr r := by
  unfold copyTemplateDirStage at h
  try simp only [] at h
  cases hg : t.getTemplateData env pn v s with
  | error e =>
    obtain ⟨r0, s0⟩ := e
    rw [hg] at h
    try simp only [] at h
    cases h
    obtain ⟨rfl, hr⟩ := getTemplateData_err hg
    exact ⟨rfl, rfl, hr⟩
  | ok p =>
    obtain ⟨d, s0⟩ := p
    rw [hg] at h
    try simp only [] at h
    cases h

theorem generateStage_fs (env : Env) (t : PackagingTask) (pn tp : String)
    (s : St) : (generateStage env t pn tp s).fs = s.fs := by
  unfold generateStage
  by_cases hb : t.hasGenerateBuildFiles = true
  · rw [if_pos hb]; rfl
  · rw [if_neg hb]

theorem generateStage_ev (env : Env) (t : PackagingTask) (pn tp : String)
    (s : St) : evExt s (generateStage env t pn tp s) := by
  unfold generateStage
  by_cases hb : t.hasGenerateBuildFiles = true
  · rw [if_pos hb]; exact evExt_appendEv _ s
  · rw [if_neg hb]; exact evExt_refl s

theorem chmodStage_ok {env : Env} {t : PackagingTask} {v pn tp : String}
    {files : List String} {s s' : St}
    (h : chmodStage env t v pn tp files s = .ok s') :
    s'.fs = s.fs ∧ evExt s s' := by
  induction files generalizing s with
  | nil =>
    unfold chmodStage at h
    try simp only [] at h
    cases h
    exact ⟨rfl, evExt_refl _⟩
  | cons file rest ih =>
    unfold chmodStage at h
    try simp only [] at h
    cases hg : t.getTemplateData env pn v s with
    | error e => rw [hg] at h; cases h
    | ok p =>
      obtain ⟨d, s0⟩ := p
      rw [hg] at h
      try simp only [] at h
      obtain ⟨hfs, hev, -⟩ := getTemplateData_ok hg
      cases hr : executeStringTemplate (tp ++ "/" ++ file) d with
      | error r1 => rw [hr] at h; cases h
      | ok p1 =>
        rw [hr] at h
        try simp only [] at h
        obtain ⟨hfs2, hev2⟩ := ih h
        refine ⟨by simp [hfs2, hfs], ?_⟩
        exact evExt_trans (b := appendEv (.chmod p1) s0) ⟨[Ev.chmod p1], by simp [hev]⟩ hev2

theorem chmodStage_err {env : Env} {t : PackagingTask} {v pn tp : String}
    {files : List String} {s : St} {r : ExitReason} {s' : St}
    (h : chmodStage env t v pn tp files s = .error (r, s')) :
    s'.fs = s.fs ∧ evExt s s' ∧ isTemplateErr r := by
  induction files generalizing s with
  | nil => unfold chmodStage at h; cases h
  | cons file rest ih =>
    unfold chmodStage at h
    try simp only [] at h
    cases hg : t.getTemplateData env pn v s with
    | error e =>
      obtain ⟨r0, s0⟩ := e
      rw [hg] at h
      try simp only [] at h
      cases h
      obtain ⟨rfl, hr⟩ := getTemplateData_err hg
      exact ⟨rfl, evExt_refl _, hr⟩
    | ok p =>
      obtain ⟨d, s0⟩ := p
      rw [hg] at h
      try simp only [] at h
      obtain ⟨hfs, hev, -⟩ := getTemplateData_ok hg
      cases hr : executeStringTemplate (tp ++ "/" ++ file) d with
      | error r1 =>
        rw [hr] at h
        try simp only [] at h
        cases h
        exact ⟨hfs, ⟨[], by simp [hev]⟩, executeStringTemplate_err hr⟩
      | ok p1 =>
        rw [hr] at h
        try simp only [] at h
        obtain ⟨hfs2, hev2, hr2⟩ := ih h
        refine ⟨by simp [hfs2, hfs], ?_, hr2⟩
        exact evExt_trans (b := appendEv (.chmod p1) s0) ⟨[Ev.chmod p1], by simp [hev]⟩ hev2

theorem removeOutputDirStage_fs (env : Env) (t : PackagingTask) (s : St) :
    (removeOutputDirStage env t s).fs =
      s.fs.filter (fun q => q != env.outputDirectoryPath t.packagingFormatName) := rfl

theorem removeOutputDirStage_events (env : Env) (t : PackagingTask) (s : St) :
    (removeOutputDirStage env t s).events =
      s.events ++ [Ev.removeOutputDir (env.outputDirectoryPath t.packagingFormatName)] := rfl

theorem scriptStage_ok {env : Env} {t : PackagingTask} {v pn tp : String}
    {s s' : St} (h : scriptStage env t v pn tp s = .ok s') :
    s'.fs = s.fs ∧ evExt s s' := by
  unfold scriptStage at h
  try simp only [] at h
  cases hg : t.getTemplateData env pn v s with
  | error e => rw [hg] at h; cases h
  | ok p =>
    obtain ⟨d, s0⟩ := p
    rw [hg] at h
    try simp only [] at h
    obtain ⟨hfs, hev, -⟩ := getTemplateData_ok hg
    cases hr : executeStringTemplate t.packagingScriptTemplate d with
    | error r1 => rw [hr] at h; cases h
    | ok c =>
      rw [hr] at h
      try simp only [] at h
      obtain ⟨hfs2, hev2⟩ := runPackaging_ok h
      exact ⟨by simp [hfs2, hfs], ⟨[Ev.runScript tp c], by simp [hev2, hev]⟩⟩

theorem scriptStage_err {env : Env} {t : PackagingTask} {v pn tp : String}
    {s : St} {r : ExitReason} {s' : St}
    (h : scriptStage env t v pn tp s = .error (r, s')) :
    s'.fs = s.fs ∧
      ((isTemplateErr r ∧ s'.events = s.events) ∨
        ∃ c, r = .scriptFailed tp c ∧
          s'.events = s.events ++ [Ev.runScript tp c]) := by
  unfold scriptStage at h
  try simp only [] at h
  cases hg : t.getTemplateData env pn v s with
  | error e =>
    obtain ⟨r0, s0⟩ := e
    rw [hg] at h
    try simp only [] at h
    cases h
    obtain ⟨rfl, hr⟩ := getTemplateData_err hg
    exact ⟨rfl, Or.inl ⟨hr, rfl⟩⟩
  | ok p =>
    obtain ⟨d, s0⟩ := p
    rw [hg] at h
    try simp only [] at h
    obtain ⟨hfs, hev, -⟩ := getTemplateData_ok hg
    cases hr : executeStringTemplate t.packagingScriptTemplate d with
    | error r1 =>
      rw [hr] at h
      try simp only [] at h
      cases h
      exact ⟨hfs, Or.inl ⟨executeStringTemplate_err hr, hev⟩⟩
    | ok c =>
      rw [hr] at h
      try simp only [] at h
      obtain ⟨rfl, hfs2, hev2⟩ := runPackaging_err h
      exact ⟨by simp [hfs2, hfs], Or.inr ⟨c, rfl, by simp [hev2, hev]⟩⟩

theorem artifactStage_ok {env : Env} {t : PackagingTask} {v pn tp : String}
    {s s' : St} (h : artifactStage env t v pn tp s = .ok s') :
    ∃ p src, s'.fs = p :: env.outputDirectoryPath t.packagingFormatName :: s.fs ∧
      s'.events = s.events ++ [Ev.copyArtifact src p] := by
  unfold artifactStage at h
  try simp only [] at h
  cases hg : t.getTemplateData env pn v s with
  | error e => rw [hg] at h; cases h
  | ok p =>
    obtain ⟨d, s0⟩ := p
    rw [hg] at h
    try simp only [] at h
    obtain ⟨hfs, hev, -⟩ := getTemplateData_ok hg
    cases hr : executeStringTemplate
        (env.outputDirectoryPath t.packagingFormatName ++ "/" ++
          outputFileName t (env.applicationName pn) (env.packageName pn) v) d with
    | error r1 => rw [hr] at h; cases h
    | ok outputFilePath =>
      rw [hr] at h
      try simp only [] at h
      cases h
      exact ⟨outputFilePath,
        tp ++ "/" ++ outputFileName t (env.applicationName pn) (env.packageName pn) v,
        by simp [hfs], by simp [hev]⟩

theorem artifactStage_err {env : Env} {t : PackagingTask} {v pn tp : String}
    {s : St} {r : ExitReason} {s' : St}
    (h : artifactStage env t v pn tp s = .error (r, s')) :
    s'.fs = s.fs ∧ s'.events = s.events ∧ isTemplateErr r := by
  unfold artifactStage at h
  try simp only [] at h
  cases hg : t.getTemplateData env pn v s with
  | error e =>
    obtain ⟨r0, s0⟩ := e
    rw [hg] at h
    try simp only [] at h
    cases h
    obtain ⟨rfl, hr⟩ := getTemplateData_err hg
    exact ⟨rfl, rfl, hr⟩
  | ok p =>
    obtain ⟨d, s0⟩ := p
    rw [hg] at h
    try simp only [] at h
    obtain ⟨hfs, hev, -⟩ := getTemplateData_ok hg
    cases hr : executeStringTemplate
        (env.outputDirectoryPath t.packagingFormatName ++ "/" ++
          outputFileName t (env.applicationName pn) (env.packageName pn) v) d with
    | error r1 =>
      rw [hr] at h
      try simp only [] at h
      cases h
      exact ⟨hfs, hev, executeStringTemplate_err hr⟩
    | ok outputFilePath => rw [hr] at h; cases h

/-! ## Composite lemmas about `packInTmp` and `packOwnSteps` -/

theorem tmpB_comp {s s1 s' : St} (h1 : tmpB s s1) (h2 : tmpB s1 s')
    (he : evExt s1 s') : tmpB s s' := by
  intro p hp hmem
  rcases h2 p hp hmem with hin | hev
  · rcases h1 p hp hin with hin2 | ⟨a, ha⟩
    · exact Or.inl hin2
    · exact Or.inr ⟨a, mem_of_evExt he ha⟩
  · exact Or.inr hev

theorem packInTmp_evExt_ok {env : Env} {t : PackagingTask}
    {v pn tp : String} {s s' : St}
    (h : packInTmp env t v pn tp s = .ok s') : evExt s s' := by
  unfold packInTmp at h
  cases h1 : logPackagingStage t s with
  | error e => rw [h1] at h; (try simp only [] at h); cases h
  | ok s1 =>
  rw [h1] at h; try simp only [] at h
  rw [logPackagingStage_ok h1] at h
  cases h2 : copyBuildOutputStage env t v pn tp s with
  | error e => rw [h2] at h; (try simp only [] at h); cases h
  | ok s2 =>
  rw [h2] at h; try simp only [] at h
  obtain ⟨-, he2⟩ := copyBuildOutputStage_ok h2
  cases h3 : copyTemplateDirStage env t v pn tp
      (copyDepOutputsStage env tp t.dependsOn s2) with
  | error e => rw [h3] at h; (try simp only [] at h); cases h
  | ok s3 =>
  rw [h3] at h; try simp only [] at h
  obtain ⟨-, he3⟩ := copyTemplateDirStage_ok h3
  cases h4 : chmodStage env t v pn tp t.executableFiles
      (generateStage env t pn tp s3) with
  | error e => rw [h4] at h; (try simp only [] at h); cases h
  | ok s4 =>
  rw [h4] at h; try simp only [] at h
  obtain ⟨-, he4⟩ := chmodStage_ok h4
  cases h5 : scriptStage env t v pn tp (removeOutputDirStage env t s4) with
  | error e => rw [h5] at h; (try simp only [] at h); cases h
  | ok s5 =>
  rw [h5] at h; try simp only [] at h
  obtain ⟨-, he5⟩ := scriptStage_ok h5
  obtain ⟨ofp, src, -, hev6⟩ := artifactStage_ok h
  exact evExt_trans he2 (evExt_trans (copyDepOutputsStage_ev env tp t.dependsOn s2)
    (evExt_trans he3 (evExt_trans (generateStage_ev env t pn tp s3)
      (evExt_trans he4 (evExt_trans ⟨_, removeOutputDirStage_events env t s4⟩
        (evExt_trans he5 ⟨[Ev.copyArtifact src ofp], hev6⟩))))))

theorem packInTmp_evExt_err {env : Env} {t : PackagingTask}
    {v pn tp : String} {s : St} {r : ExitReason} {s' : St}
    (h : packInTmp env t v pn tp s = .error (r, s')) : evExt s s' := by
  unfold packInTmp at h
  cases h1 : logPackagingStage t s with
  | error e =>
    obtain ⟨r1, s1⟩ := e
    rw [h1] at h; try simp only [] at h
    obtain ⟨-, hs1⟩ := logPackagingStage_err h1
    simp at h
    obtain ⟨-, rfl⟩ := h
    rw [hs1]
    exact evExt_refl s
  | ok s1 =>
  rw [h1] at h; try simp only [] at h
  rw [logPackagingStage_ok h1] at h
  cases h2 : copyBuildOutputStage env t v pn tp s with
  | error e =>
    obtain ⟨r2, s2⟩ := e
    rw [h2] at h; try simp only [] at h
    obtain ⟨-, hev, -⟩ := copyBuildOutputStage_err h2
    simp at h
    obtain ⟨-, rfl⟩ := h
    exact ⟨[], by simp [hev]⟩
  | ok s2 =>
  rw [h2] at h; try simp only [] at h
  obtain ⟨-, he2⟩ := copyBuildOutputStage_ok h2
  have heDeps := copyDepOutputsStage_ev env tp t.dependsOn s2
  cases h3 : copyTemplateDirStage env t v pn tp
      (copyDepOutputsStage env tp t.dependsOn s2) with
  | error e =>
    obtain ⟨r3, s3⟩ := e
    rw [h3] at h; try simp only [] at h
    obtain ⟨-, hev, -⟩ := copyTemplateDirStage_err h3
    simp at h
    obtain ⟨-, rfl⟩ := h
    exact evExt_trans he2 (evExt_trans heDeps ⟨[], by simp [hev]⟩)
  | ok s3 =>
  rw [h3] at h; try simp only [] at h
  obtain ⟨-, he3⟩ := copyTemplateDirStage_ok h3
  have heGen := generateStage_ev env t pn tp s3
  cases h4 : chmodStage env t v pn tp t.executableFiles
      (generateStage env t pn tp s3) with
  | error e =>
    obtain ⟨r4, s4⟩ := e
    rw [h4] at h; try simp only [] at h
    obtain ⟨-, hev, -⟩ := chmodStage_err h4
    simp at h
    obtain ⟨-, rfl⟩ := h
    exact evExt_trans he2 (evExt_trans heDeps (evExt_trans he3
      (evExt_trans heGen hev)))
  | ok s4 =>
  rw [h4] at h; try simp only [] at h
  obtain ⟨-, he4⟩ := chmodStage_ok h4
  have heRm : evExt s4 (removeOutputDirStage env t s4) :=
    ⟨_, removeOutputDirStage_events env t s4⟩
  cases h5 : scriptStage env t v pn tp (removeOutputDirStage env t s4) with
  | error e =>
    obtain ⟨r5, s5⟩ := e
    rw [h5] at h; try simp only [] at h
    obtain ⟨-, hev5⟩ := scriptStage_err h5
    simp at h
    obtain ⟨-, rfl⟩ := h
    refine evExt_trans he2 (evExt_trans heDeps (evExt_trans he3
      (evExt_trans heGen (evExt_trans he4 (evExt_trans heRm ?_)))))
    rcases hev5 with ⟨-, hev⟩ | ⟨c, -, hev⟩
    · exact ⟨[], by simp [hev]⟩
    · exact ⟨[Ev.runScript tp c], hev⟩
  | ok s5 =>
  rw [h5] at h; try simp only [] at h
  obtain ⟨-, he5⟩ := scriptStage_ok h5
  cases h6 : artifactStage env t v pn tp s5 with
  | error e =>
    obtain ⟨r6, s6⟩ := e
    rw [h6] at h; try simp only [] at h
    obtain ⟨-, hev, -⟩ := artifactStage_err h6
    simp at h
    obtain ⟨-, rfl⟩ := h
    exact evExt_trans he2 (evExt_trans heDeps (evExt_trans he3
      (evExt_trans heGen (evExt_trans he4 (evExt_trans heRm
        (evExt_trans he5 ⟨[], by simp [hev]⟩))))))
  | ok s6 => rw [h6] at h; (try simp only [] at h); cases h

theorem packInTmp_ok_fs {env : Env} {t : PackagingTask} {v pn tp : String}
    {s s' : St} (h : packInTmp env t v pn tp s = .ok s') :
    ∃ ofp src,
      s'.fs = ofp :: env.outputDirectoryPath t.packagingFormatName ::
        (s.fs.filter (fun q => q != env.outputDirectoryPath t.packagingFormatName)) ∧
      Ev.copyArtifact src ofp ∈ s'.events := by
  unfold packInTmp at h
  cases h1 : logPackagingStage t s with
  | error e => rw [h1] at h; (try simp only [] at h); cases h
  | ok s1 =>
  rw [h1] at h; try simp only [] at h
  rw [logPackagingStage_ok h1] at h
  cases h2 : copyBuildOutputStage env t v pn tp s with
  | error e => rw [h2] at h; (try simp only [] at h); cases h
  | ok s2 =>
  rw [h2] at h; try simp only [] at h
  obtain ⟨hfs2, -⟩ := copyBuildOutputStage_ok h2
  cases h3 : copyTemplateDirStage env t v pn tp
      (copyDepOutputsStage env tp t.dependsOn s2) with
  | error e => rw [h3] at h; (try simp only [] at h); cases h
  | ok s3 =>
  rw [h3] at h; try simp only [] at h
  obtain ⟨hfs3, -⟩ := copyTemplateDirStage_ok h3
  cases h4 : chmodStage env t v pn tp t.executableFiles
      (generateStage env t pn tp s3) with
  | error e => rw [h4] at h; (try simp only [] at h); cases h
  | ok s4 =>
  rw [h4] at h; try simp only [] at h
  obtain ⟨hfs4, -⟩ := chmodStage_ok h4
  cases h5 : scriptStage env t v pn tp (removeOutputDirStage env t s4) with
  | error e => rw [h5] at h; (try simp only [] at h); cases h
  | ok s5 =>
  rw [h5] at h; try simp only [] at h
  obtain ⟨hfs5, -⟩ := scriptStage_ok h5
  obtain ⟨ofp, src, hfs6, hev6⟩ := artifactStage_ok h
  refine ⟨ofp, src, ?_, ?_⟩
  · rw [hfs6, hfs5, removeOutputDirStage_fs, hfs4, generateStage_fs, hfs3,
      copyDepOutputsStage_fs, hfs2]
  · rw [hev6]
    exact List.mem_append_right _ (List.mem_singleton_self _)

theorem packInTmp_scriptFail {env : Env} {t : PackagingTask}
    {v pn tp : String} {s : St} {d c : String} {s' : St}
    (h : packInTmp env t v pn tp s = .error (.scriptFailed d c, s')) :
    d = tp ∧
      s'.fs = s.fs.filter
        (fun q => q != env.outputDirectoryPath t.packagingFormatName) ∧
      ∃ pre, s'.events = s.events ++ pre ++
        [Ev.removeOutputDir (env.outputDirectoryPath t.packagingFormatName),
         Ev.runScript tp c] := by
  unfold packInTmp at h
  cases h1 : logPackagingStage t s with
  | error e =>
    obtain ⟨r1, s1⟩ := e
    rw [h1] at h; try simp only [] at h
    obtain ⟨rfl, -⟩ := logPackagingStage_err h1
    simp at h
  | ok s1 =>
  rw [h1] at h; try simp only [] at h
  rw [logPackagingStage_ok h1] at h
  cases h2 : copyBuildOutputStage env t v pn tp s with
  | error e =>
    obtain ⟨r2, s2⟩ := e
    rw [h2] at h; try simp only [] at h
    obtain ⟨-, -, hr2⟩ := copyBuildOutputStage_err h2
    simp at h
    obtain ⟨h, -⟩ := h
    exact absurd h (isTemplateErr_ne_scriptFailed hr2 d c)
  | ok s2 =>
  rw [h2] at h; try simp only [] at h
  obtain ⟨hfs2, he2⟩ := copyBuildOutputStage_ok h2
  cases h3 : copyTemplateDirStage env t v pn tp
      (copyDepOutputsStage env tp t.dependsOn s2) with
  | error e =>
    obtain ⟨r3, s3⟩ := e
    rw [h3] at h; try simp only [] at h
    obtain ⟨-, -, hr3⟩ := copyTemplateDirStage_err h3
    simp at h
    obtain ⟨h, -⟩ := h
    exact absurd h (isTemplateErr_ne_scriptFailed hr3 d c)
  | ok s3 =>
  rw [h3] at h; try simp only [] at h
  obtain ⟨hfs3, he3⟩ := copyTemplateDirStage_ok h3
  cases h4 : chmodStage env t v pn tp t.executableFiles
      (generateStage env t pn tp s3) with
  | error e =>
    obtain ⟨r4, s4⟩ := e
    rw [h4] at h; try simp only [] at h
    obtain ⟨-, -, hr4⟩ := chmodStage_err h4
    simp at h
    obtain ⟨h, -⟩ := h
    exact absurd h (isTemplateErr_ne_scriptFailed hr4 d c)
  | ok s4 =>
  rw [h4] at h; try simp only [] at h
  obtain ⟨hfs4, he4⟩ := chmodStage_ok h4
  cases h5 : scriptStage env t v pn tp (removeOutputDirStage env t s4) with
  | error e =>
    obtain ⟨r5, s5⟩ := e
    rw [h5] at h; try simp only [] at h
    obtain ⟨hfs5, hev5⟩ := scriptStage_err h5
    simp at h
    obtain ⟨hr, rfl⟩ := h
    rcases hev5 with ⟨hte, -⟩ | ⟨c0, hc0, hev⟩
    · exact absurd hr (isTemplateErr_ne_scriptFailed hte d c)
    · rw [hc0] at hr
      cases hr
      refine ⟨rfl, ?_, ?_⟩
      · rw [hfs5, removeOutputDirStage_fs, hfs4, generateStage_fs, hfs3,
          copyDepOutputsStage_fs, hfs2]
      · obtain ⟨e2, hee2⟩ := he2
        obtain ⟨eD, heeD⟩ := copyDepOutputsStage_ev env tp t.dependsOn s2
        obtain ⟨e3, hee3⟩ := he3
        obtain ⟨eG, heeG⟩ := generateStage_ev env t pn tp s3
        obtain ⟨e4, hee4⟩ := he4
        refine ⟨e2 ++ eD ++ e3 ++ eG ++ e4, ?_⟩
        rw [hev, removeOutputDirStage_events, hee4, heeG, hee3, heeD, hee2]
        simp
  | ok s5 =>
  rw [h5] at h; try simp only [] at h
  cases h6 : artifactStage env t v pn tp s5 with
  | error e =>
    obtain ⟨r6, s6⟩ := e
    rw [h6] at h; try simp only [] at h
    obtain ⟨-, -, hr6⟩ := artifactStage_err h6
    simp at h
    obtain ⟨h, -⟩ := h
    exact absurd h (isTemplateErr_ne_scriptFailed hr6 d c)
  | ok s6 => rw [h6] at h; (try simp only [] at h); cases h

theorem packOwnSteps_evExt_ok {env : Env} {t : PackagingTask} {v : String}
    {s s' : St} (h : packOwnSteps env t v s = .ok s') : evExt s s' := by
  unfold packOwnSteps at h
  try simp only [] at h
  cases hpit : packInTmp env t v env.pubspecName
      (getTemporaryBuildDirectory env.pubspecName t.packagingFormatName s).1
      (getTemporaryBuildDirectory env.pubspecName t.packagingFormatName s).2 with
  | error e =>
    obtain ⟨r, s2⟩ := e
    rw [hpit] at h; try simp only [] at h
    by_cases hp : isPanic r = true
    · rw [if_pos hp] at h; cases h
    · rw [if_neg hp] at h; cases h
  | ok s2 =>
    rw [hpit] at h; try simp only [] at h
    cases h
    have halloc : evExt s (getTemporaryBuildDirectory env.pubspecName
        t.packagingFormatName s).2 :=
      ⟨[Ev.allocTmp (tmpDirName env.pubspecName t.packagingFormatName s.nextTmp)], rfl⟩
    exact evExt_trans halloc (evExt_trans (packInTmp_evExt_ok hpit)
      (removeTmpStep_evExt _ s2))

theorem packOwnSteps_ok_tmpB {env : Env} {t : PackagingTask} {v : String}
    {s s' : St}
    (hsep : ∀ f, isTmpPath (env.outputDirectoryPath f) = false)
    (h : packOwnSteps env t v s = .ok s') : tmpB s s' := by
  unfold packOwnSteps at h
  try simp only [] at h
  cases hpit : packInTmp env t v env.pubspecName
      (getTemporaryBuildDirectory env.pubspecName t.packagingFormatName s).1
      (getTemporaryBuildDirectory env.pubspecName t.packagingFormatName s).2 with
  | error e =>
    obtain ⟨r, s2⟩ := e
    rw [hpit] at h; try simp only [] at h
    by_cases hp : isPanic r = true
    · rw [if_pos hp] at h; cases h
    · rw [if_neg hp] at h; cases h
  | ok s2 =>
    rw [hpit] at h; try simp only [] at h
    cases h
    intro p hp hmem
    rw [mem_removeTmpStep_iff] at hmem
    obtain ⟨hmem, hne⟩ := hmem
    obtain ⟨ofp, src, hfs, hev⟩ := packInTmp_ok_fs hpit
    rw [hfs] at hmem
    rcases List.mem_cons.mp hmem with rfl | hmem2
    · exact Or.inr ⟨src, List.mem_append_left _ hev⟩
    rcases List.mem_cons.mp hmem2 with rfl | hmem3
    · rw [hsep t.packagingFormatName] at hp
      cases hp
    · have hin : p ∈ (getTemporaryBuildDirectory env.pubspecName
          t.packagingFormatName s).2.fs := (List.mem_filter.mp hmem3).1
      simp only [getTemporaryBuildDirectory] at hin
      rcases List.mem_cons.mp hin with rfl | hmem4
      · exact absurd rfl hne
      · exact Or.inl hmem4

theorem packOwnSteps_scriptFail {env : Env} {t : PackagingTask} {v : String}
    {s : St} {d c : String} {s' : St}
    (hsep : ∀ f, isTmpPath (env.outputDirectoryPath f) = false)
    (h : packOwnSteps env t v s = .error (.scriptFailed d c, s')) :
    isTmpPath d = true ∧ d ∈ s'.fs := by
  unfold packOwnSteps at h
  try simp only [] at h
  cases hpit : packInTmp env t v env.pubspecName
      (getTemporaryBuildDirectory env.pubspecName t.packagingFormatName s).1
      (getTemporaryBuildDirectory env.pubspecName t.packagingFormatName s).2 with
  | ok s2 => rw [hpit] at h; (try simp only [] at h); cases h
  | error e =>
    obtain ⟨r, s2⟩ := e
    rw [hpit] at h; try simp only [] at h
    by_cases hp : isPanic r = true
    · rw [if_pos hp] at h
      simp at h
      obtain ⟨hr, -⟩ := h
      rw [hr] at hp
      cases hp
    · rw [if_neg hp] at h
      simp at h
      obtain ⟨hr, hs⟩ := h
      subst hr
      subst hs
      obtain ⟨hd, hfs, -⟩ := packInTmp_scriptFail hpit
      subst hd
      refine ⟨isTmpPath_tmpDirName _ _ _, ?_⟩
      rw [hfs, List.mem_filter]
      constructor
      · simp only [getTemporaryBuildDirectory]
        exact List.mem_cons_self _ _
      · exact bne_iff_ne.mpr (ne_of_isTmpPath (isTmpPath_tmpDirName _ _ _)
          (hsep t.packagingFormatName))

/-! ## Mutual lemmas about `Pack` / `packDeps` -/

mutual

theorem pack_evExt_ok (env : Env) (v : String) :
    (t : PackagingTask) → (s s' : St) →
    PackagingTask.Pack env t v s = .ok s' → evExt s s'
  | .mk n deps tf ef lde ldi hg bod pst ofe ocv oua sai, s, s', h => by
    simp only [PackagingTask.Pack] at h
    cases hd : packDeps env deps v s with
    | error e => rw [hd] at h; cases h
    | ok s1 =>
      rw [hd] at h
      exact evExt_trans (packDeps_evExt_ok env v deps s s1 hd)
        (packOwnSteps_evExt_ok h)

theorem packDeps_evExt_ok (env : Env) (v : String) :
    (l : List (PackagingTask × String)) → (s s' : St) →
    packDeps env l v s = .ok s' → evExt s s'
  | [], s, s', h => by
    simp only [packDeps] at h
    cases h
    exact evExt_refl s
  | (task, dest) :: rest, s, s', h => by
    simp only [packDeps] at h
    cases hp : task.Pack env v s with
    | error e => rw [hp] at h; cases h
    | ok s1 =>
      rw [hp] at h
      exact evExt_trans (pack_evExt_ok env v task s s1 hp)
        (packDeps_evExt_ok env v rest s1 s' h)

end

theorem tmpB_refl (s : St) : tmpB s s := fun _ _ hmem => Or.inl hmem

mutual

theorem pack_ok_tmpB (env : Env) (v : String)
    (hsep : ∀ f, isTmpPath (env.outputDirectoryPath f) = false) :
    (t : PackagingTask) → (s s' : St) →
    PackagingTask.Pack env t v s = .ok s' → tmpB s s'
  | .mk n deps tf ef lde ldi hg bod pst ofe ocv oua sai, s, s', h => by
    simp only [PackagingTask.Pack] at h
    cases hd : packDeps env deps v s with
    | error e => rw [hd] at h; cases h
    | ok s1 =>
      rw [hd] at h
      exact tmpB_comp (packDeps_ok_tmpB env v hsep deps s s1 hd)
        (packOwnSteps_ok_tmpB hsep h) (packOwnSteps_evExt_ok h)

theorem packDeps_ok_tmpB (env : Env) (v : String)
    (hsep : ∀ f, isTmpPath (env.outputDirectoryPath f) = false) :
    (l : List (PackagingTask × String)) → (s s' : St) →
    packDeps env l v s = .ok s' → tmpB s s'
  | [], s, s', h => by
    simp only [packDeps] at h
    cases h
    exact tmpB_refl s
  | (task, dest) :: rest, s, s', h => by
    simp only [packDeps] at h
    cases hp : task.Pack env v s with
    | error e => rw [hp] at h; cases h
    | ok s1 =>
      rw [hp] at h
      exact tmpB_comp (pack_ok_tmpB env v hsep task s s1 hp)
        (packDeps_ok_tmpB env v hsep rest s1 s' h)
        (packDeps_evExt_ok env v rest s1 s' h)

end

mutual

theorem pack_scriptFail (env : Env) (v : String)
    (hsep : ∀ f, isTmpPath (env.outputDirectoryPath f) = false) :
    (t : PackagingTask) → (s s' : St) → (d c : String) →
    PackagingTask.Pack env t v s = .error (.scriptFailed d c, s') →
    isTmpPath d = true ∧ d ∈ s'.fs
  | .mk n deps tf ef lde ldi hg bod pst ofe ocv oua sai, s, s', d, c, h => by
    simp only [PackagingTask.Pack] at h
    cases hd : packDeps env deps v s with
    | error e =>
      obtain ⟨r0, s0⟩ := e
      rw [hd] at h
      simp at h
      obtain ⟨h1, h2⟩ := h
      subst h1
      subst h2
      exact packDeps_scriptFail env v hsep deps s _ d c hd
    | ok s1 =>
      rw [hd] at h
      exact packOwnSteps_scriptFail hsep h

theorem packDeps_scriptFail (env : Env) (v : String)
    (hsep : ∀ f, isTmpPath (env.outputDirectoryPath f) = false) :
    (l : List (PackagingTask × String)) → (s s' : St) → (d c : String) →
    packDeps env l v s = .error (.scriptFailed d c, s') →
    isTmpPath d = true ∧ d ∈ s'.fs
  | [], s, s', d, c, h => by simp [packDeps] at h
  | (task, dest) :: rest, s, s', d, c, h => by
    simp only [packDeps] at h
    cases hp : task.Pack env v s with
    | error e =>
      obtain ⟨r0, s0⟩ := e
      rw [hp] at h
      simp at h
      obtain ⟨h1, h2⟩ := h
      subst h1
      subst h2
      exact pack_scriptFail env v hsep task s _ d c hp
    | ok s1 =>
      rw [hp] at h
      exact packDeps_scriptFail env v hsep rest s1 s' d c h

end

/-- `Pack` is the dependency recursion followed by the task's own
steps: a successful run factors through an intermediate state reached
by packing exactly the `dependsOn` list (with the same version). -/
theorem pack_decompose {env : Env} {v : String} {t : PackagingTask}
    {s s' : St} (h : PackagingTask.Pack env t v s = .ok s') :
    ∃ s1, packDeps env t.dependsOn v s = .ok s1 ∧
      packOwnSteps env t v s1 = .ok s' := by
  obtain ⟨n, deps, tf, ef, lde, ldi, hg, bod, pst, ofe, ocv, oua, sai⟩ := t
  simp only [PackagingTask.Pack] at h
  simp only [PackagingTask.dependsOn]
  cases hd : packDeps env deps v s with
  | error e => rw [hd] at h; cases h
  | ok s1 =>
    rw [hd] at h
    exact ⟨s1, rfl, h⟩

/-! ## Lemmas about `init` -/

theorem isInitialized_iff {t : PackagingTask} {s : St} :
    t.IsInitialized s = true ↔
      packagingFormatPath t.packagingFormatName ∈ s.fs := by
  simp [PackagingTask.IsInitialized, statExists]

theorem copyTemplateFiles_mono {format : String}
    {l : List (String × String)} {s : St} {q : String} (h : q ∈ s.fs) :
    q ∈ (copyTemplateFiles format l s).fs := by
  induction l generalizing s with
  | nil => exact h
  | cons hd rest ih =>
    obtain ⟨sourceFile, destinationFile⟩ := hd
    exact ih (by simp [List.mem_cons_of_mem, h])

theorem initOwn_mono {t : PackagingTask} {ig : Bool} {s : St} {q : String}
    (h : q ∈ s.fs) : q ∈ (resSt (initOwn t ig s)).fs := by
  unfold initOwn
  by_cases hi : t.IsInitialized s = true
  · simp only [hi]
    by_cases hg : ig = true
    · simp [hg, resSt, h]
    · simp [hg, resSt, h]
  · simp only [Bool.not_eq_true] at hi
    simp only [hi]
    unfold createPackagingFormatDirectory
    have : statExists s (packagingFormatPath t.packagingFormatName) = false := hi
    simp only [this]
    simp only [Bool.false_eq_true, if_false, resSt]
    exact copyTemplateFiles_mono (by simp [List.mem_cons_of_mem, h])

theorem initOwn_ok_isInit {t : PackagingTask} {ig : Bool} {s s' : St}
    (h : initOwn t ig s = .ok s') : t.IsInitialized s' = true := by
  unfold initOwn at h
  by_cases hi : t.IsInitialized s = true
  · simp only [hi] at h
    by_cases hg : ig = true
    · simp only [hg] at h
      simp at h
      cases h
      exact hi
    · simp only [hg] at h
      simp at h
  · simp only [Bool.not_eq_true] at hi
    simp only [hi] at h
    unfold createPackagingFormatDirectory at h
    have hst : statExists s (packagingFormatPath t.packagingFormatName) = false := hi
    simp only [hst, Bool.false_eq_true, if_false] at h
    try simp only [] at h
    cases h
    rw [isInitialized_iff]
    exact copyTemplateFiles_mono (List.mem_cons_self _ _)

theorem initOwn_true_ok (t : PackagingTask) (s : St) :
    ∃ s', initOwn t true s = .ok s' := by
  unfold initOwn
  by_cases hi : t.IsInitialized s = true
  · exact ⟨s, by simp [hi]⟩
  · simp only [Bool.not_eq_true] at hi
    refine ⟨copyTemplateFiles t.packagingFormatName t.templateFiles
      (insertPath (packagingFormatPath t.packagingFormatName) s), ?_⟩
    unfold createPackagingFormatDirectory
    have hst : statExists s (packagingFormatPath t.packagingFormatName) = false := hi
    simp [hi, hst]

theorem initOwn_false_already {t : PackagingTask} {s : St}
    (h : t.IsInitialized s = true) :
    initOwn t false s = .error (.alreadyInitialized t.packagingFormatName, s) := by
  simp [initOwn, h]

mutual

theorem initTask_mono (q : String) :
    (t : PackagingTask) → (ig : Bool) → (s : St) →
    q ∈ s.fs → q ∈ (resSt (initTask t ig s)).fs
  | .mk n deps tf ef lde ldi hg bod pst ofe ocv oua sai, ig, s, h => by
    simp only [initTask]
    cases hd : initDeps deps s with
    | error e =>
      have := initDeps_mono q deps s h
      rw [hd] at this
      exact this
    | ok s1 =>
      have h1 := initDeps_mono q deps s h
      rw [hd] at h1
      simp only [resSt] at h1
      exact initOwn_mono h1

theorem initDeps_mono (q : String) :
    (l : List (PackagingTask × String)) → (s : St) →
    q ∈ s.fs → q ∈ (resSt (initDeps l s)).fs
  | [], s, h => by simpa [initDeps, resSt] using h
  | (task, dest) :: rest, s, h => by
    simp only [initDeps]
    cases ht : initTask task true s with
    | error e =>
      have := initTask_mono q task true s h
      rw [ht] at this
      exact this
    | ok s1 =>
      have h1 := initTask_mono q task true s h
      rw [ht] at h1
      simp only [resSt] at h1
      exact initDeps_mono q rest s1 h1

end

mutual

theorem initTask_true_ok :
    (t : PackagingTask) → (s : St) → ∃ s', initTask t true s = .ok s'
  | .mk n deps tf ef lde ldi hg bod pst ofe ocv oua sai, s => by
    obtain ⟨s1, hd⟩ := initDeps_true_ok deps s
    obtain ⟨s2, ho⟩ :=
      initOwn_true_ok (.mk n deps tf ef lde ldi hg bod pst ofe ocv oua sai) s1
    exact ⟨s2, by simp only [initTask, hd, ho]⟩

theorem initDeps_true_ok :
    (l : List (PackagingTask × String)) → (s : St) →
    ∃ s', initDeps l s = .ok s'
  | [], s => ⟨s, rfl⟩
  | (task, dest) :: rest, s => by
    obtain ⟨s1, h1⟩ := initTask_true_ok task s
    obtain ⟨s2, h2⟩ := initDeps_true_ok rest s1
    exact ⟨s2, by simp only [initDeps, h1, h2]⟩

end

/-- A successful non-suppressed `init` factors through the dependency
recursion and then the task's own scaffolding. -/
theorem initTask_decompose {t : PackagingTask} {ig : Bool} {s s' : St}
    (h : initTask t ig s = .ok s') :
    ∃ s1, initDeps t.dependsOn s = .ok s1 ∧ initOwn t ig s1 = .ok s' := by
  obtain ⟨n, deps, tf, ef, lde, ldi, hg, bod, pst, ofe, ocv, oua, sai⟩ := t
  simp only [initTask] at h
  simp only [PackagingTask.dependsOn]
  cases hd : initDeps deps s with
  | error e => rw [hd] at h; cases h
  | ok s1 =>
    rw [hd] at h
    exact ⟨s1, rfl, h⟩

/-! ## Remaining helper lemmas for the claims -/

theorem hsep_env0 : ∀ f, isTmpPath (env0.outputDirectoryPath f) = false := by
  intro f
  have h1 : env0.outputDirectoryPath f = "go/build/outputs/" ++ f := rfl
  rw [h1, isTmpPath, String.data_append]
  have h2 : tmpMarker.data = '/' :: "tmp/hover-build-".data := rfl
  have h3 : ("go/build/outputs/" : String).data = 'g' :: "o/build/outputs/".data := rfl
  have h4 : (('/' : Char) == 'g') = false := rfl
  rw [h2, h3]
  simp [List.isPrefixOf, h4]

theorem hsep_env1 : ∀ f, isTmpPath (env1.outputDirectoryPath f) = false :=
  fun f => hsep_env0 f

/-- On a script failure, the format's output directory - removed just
before the script ran - is absent from the state the process exits
with (the `os.Exit` path restores nothing). -/
theorem packOwnSteps_scriptFail_outDir {env : Env} {t : PackagingTask}
    {v : String} {s : St} {d c : String} {s' : St}
    (h : packOwnSteps env t v s = .error (.scriptFailed d c, s')) :
    env.outputDirectoryPath t.packagingFormatName ∉ s'.fs := by
  unfold packOwnSteps at h
  try simp only [] at h
  cases hpit : packInTmp env t v env.pubspecName
      (getTemporaryBuildDirectory env.pubspecName t.packagingFormatName s).1
      (getTemporaryBuildDirectory env.pubspecName t.packagingFormatName s).2 with
  | ok s2 => rw [hpit] at h; (try simp only [] at h); cases h
  | error e =>
    obtain ⟨r, s2⟩ := e
    rw [hpit] at h; try simp only [] at h
    by_cases hp : isPanic r = true
    · rw [if_pos hp] at h
      simp at h
      obtain ⟨hr, -⟩ := h
      rw [hr] at hp
      cases hp
    · rw [if_neg hp] at h
      simp at h
      obtain ⟨hr, hs⟩ := h
      subst hr
      subst hs
      obtain ⟨-, hfs, -⟩ := packInTmp_scriptFail hpit
      rw [hfs]
      intro hmem
      have := (List.mem_filter.mp hmem).2
      simp at this

/-! ## The claims -/

/-- C1 (amended): after a successful `Pack` no temporary build
directory remains (given that output directories and rendered artifact
paths are not temp paths, and none existed initially), because the
deferred `os.RemoveAll(tmpPath)` runs on normal return; but after a
failing `Pack` whose packaging script exits non-zero, the process
terminates through `os.Exit(1)` inside `runPackaging`, which does NOT
run deferred functions, so the failing invocation's temporary build
directory (the directory named in the abort) still exists. -/
theorem pack_tmpdir_cleanup (env : Env) (t : PackagingTask) (v : String)
    (s s' : St)
    (hsep : ∀ f, isTmpPath (env.outputDirectoryPath f) = false) :
    (PackagingTask.Pack env t v s = .ok s' →
      (∀ a b, Ev.copyArtifact a b ∈ s'.events → isTmpPath b = false) →
      ∀ p, isTmpPath p = true → p ∉ s.fs → p ∉ s'.fs) ∧
    (∀ d c, PackagingTask.Pack env t v s = .error (.scriptFailed d c, s') →
      isTmpPath d = true ∧ d ∈ s'.fs) := by
  constructor
  · intro hok hart p hp hnot hmem
    rcases pack_ok_tmpB env v hsep t s s' hok p hp hmem with hin | ⟨a, ha⟩
    · exact hnot hin
    · rw [hart a p ha] at hp
      cases hp
  · intro d c h
    exact pack_scriptFail env v hsep t s s' d c h

/-- C1 witness: both branches of `pack_tmpdir_cleanup` exercised on a
concrete task - a successful run leaves no temp path, a failed run
aborts with the temp directory still present. -/
theorem pack_tmpdir_cleanup_witness :
    (PackagingTask.Pack env0 taskC "1.0.0" st0 = .ok stCsucc ∧
      ∀ p, isTmpPath p = true → p ∉ st0.fs → p ∉ stCsucc.fs) ∧
    (PackagingTask.Pack env1 taskC "1.0.0" st0 =
      .error (.scriptFailed tmpC0 "pack.sh", stCfail) ∧
      isTmpPath tmpC0 = true ∧ tmpC0 ∈ stCfail.fs) := by
  have hart : ∀ a b, Ev.copyArtifact a b ∈ stCsucc.events → isTmpPath b = false := by
    have hev : stCsucc.events =
        [.allocTmp "/tmp/hover-build-proj-linux-c-0",
         .copyTemplateDir "go/packaging/linux-c" "/tmp/hover-build-proj-linux-c-0",
         .removeOutputDir "go/build/outputs/linux-c",
         .runScript "/tmp/hover-build-proj-linux-c-0" "pack.sh",
         .copyArtifact "/tmp/hover-build-proj-linux-c-0/my_app-1.0.0.deb"
           "go/build/outputs/linux-c/my_app-1.0.0.deb",
         .removeTmp "/tmp/hover-build-proj-linux-c-0"] := rfl
    intro a b hmem
    rw [hev] at hmem
    simp at hmem
    obtain ⟨-, rfl⟩ := hmem
    decide
  refine ⟨⟨rfl, ?_⟩, rfl, ?_, ?_⟩
  · intro p hp hnot
    exact (pack_tmpdir_cleanup env0 taskC "1.0.0" st0 stCsucc hsep_env0).1
      rfl hart p hp hnot
  · exact ((pack_tmpdir_cleanup env1 taskC "1.0.0" st0 stCfail hsep_env1).2
      tmpC0 "pack.sh" rfl).1
  · exact ((pack_tmpdir_cleanup env1 taskC "1.0.0" st0 stCfail hsep_env1).2
      tmpC0 "pack.sh" rfl).2

/-- C1 counterexample: the claim as stated says the temporary build
directory no longer exists after a failing `Pack`; on the concrete
fault-injected run the process aborts with the temp directory still in
the filesystem. -/
theorem pack_failed_script_tmpdir_survives_cex :
    ∃ d c s', PackagingTask.Pack env1 taskC "1.0.0" st0 =
      .error (.scriptFailed d c, s') ∧ d ∈ s'.fs :=
  ⟨_, _, _, rfl, by decide⟩

/-- C2: `init` first recursively initializes every dependency with the
already-initialized failure suppressed (an ignore-mode `init` never
fails), and for the task itself fails with the already-initialized
error if its configuration directory exists, otherwise creates it - so
a successful `Init` makes `IsInitialized` true and a second `Init`
fails with the already-initialized error. -/
theorem init_spec (t : PackagingTask) (s s' : St) :
    (∀ (u : PackagingTask) (σ : St), ∃ σ', initTask u true σ = .ok σ') ∧
    (initTask t false s = .ok s' →
      t.IsInitialized s' = true ∧
      ∃ s'', initTask t false s' =
        .error (.alreadyInitialized t.packagingFormatName, s'')) ∧
    (t.IsInitialized s = true →
      ∃ s'', initTask t false s =
        .error (.alreadyInitialized t.packagingFormatName, s'')) ∧
    (initTask t false s = .ok s' →
      ∃ s1, initDeps t.dependsOn s = .ok s1 ∧ initOwn t false s1 = .ok s') := by
  have second : ∀ σ, t.IsInitialized σ = true →
      ∃ s'', initTask t false σ =
        .error (.alreadyInitialized t.packagingFormatName, s'') := by
    intro σ hi
    obtain ⟨s1, hd⟩ := initDeps_true_ok t.dependsOn σ
    have hi1 : t.IsInitialized s1 = true := by
      rw [isInitialized_iff] at hi ⊢
      have hm := initDeps_mono (packagingFormatPath t.packagingFormatName)
        t.dependsOn σ hi
      rw [hd] at hm
      exact hm
    refine ⟨s1, ?_⟩
    obtain ⟨n, deps, tf, ef, lde, ldi, hg, bod, pst, ofe, ocv, oua, sai⟩ := t
    simp only [PackagingTask.dependsOn] at hd
    simp only [initTask, hd]
    exact initOwn_false_already hi1
  refine ⟨fun u σ => initTask_true_ok u σ, ?_, second s,
    fun h => initTask_decompose h⟩
  intro h
  obtain ⟨s1, hd, ho⟩ := initTask_decompose h
  have hinit := initOwn_ok_isInit ho
  exact ⟨hinit, second s' hinit⟩

/-- C2 witness: initializing `taskB` (which depends on `taskC`) on an
empty filesystem succeeds, `IsInitialized` then holds, and a second
`Init` fails with the already-initialized error. -/
theorem init_spec_witness :
    ∃ s', initTask taskB false stEmpty = .ok s' ∧
      taskB.IsInitialized s' = true ∧
      ∃ s'', initTask taskB false s' =
        .error (.alreadyInitialized "linux-b", s'') := by
  refine ⟨_, rfl, ?_⟩
  obtain ⟨h1, h2⟩ := (init_spec taskB stEmpty _).2.1 rfl
  exact ⟨h1, h2⟩

/-- C3: the artifact file name `Pack` computes is the application name
(when `outputFileUsesApplicationName`) or else the package name,
followed - when `outputFileContainsVersion` - by a space respectively
a hyphen and the version, then a dot and the extension; in particular
"MyApp 1.2.3.dmg" and "my_app-1.2.3.dmg" for the spec's two examples. -/
theorem outputFileName_spec :
    (∀ (t : PackagingTask) (a p v : String),
      outputFileName t a p v =
        (if t.outputFileUsesApplicationName then a else p) ++
        (if t.outputFileContainsVersion then
          (if t.outputFileUsesApplicationName then " " else "-") ++ v
         else "") ++ "." ++ t.outputFileExtension) ∧
    outputFileName taskDmgApp "MyApp" "my_app" "1.2.3" = "MyApp 1.2.3.dmg" ∧
    outputFileName taskDmgPkg "MyApp" "my_app" "1.2.3" = "my_app-1.2.3.dmg" := by
  refine ⟨?_, rfl, rfl⟩
  intro t a p v
  unfold outputFileName
  by_cases h1 : t.outputFileUsesApplicationName = true <;>
    by_cases h2 : t.outputFileContainsVersion = true <;>
      simp [h1, h2, String.append_assoc, String.append_empty]

/-- C4: the template renderer either returns the fully substituted
string - in which case the template parsed and every referenced key
was present - or fails: a malformed template gives the parse error and
a referenced key absent from the context gives a missing-key error,
never partial output. -/
theorem executeStringTemplate_strict (t : String)
    (data : List (String × String)) :
    (∀ out, executeStringTemplate t data = .ok out →
      ∃ items, parseTmpl t.data = some items ∧
        (∀ k ∈ refKeys items, (lookupCtx data k).isSome = true) ∧
        out = fullRender data items) ∧
    (parseTmpl t.data = none →
      executeStringTemplate t data = .error .templateParse) ∧
    (∀ items k, parseTmpl t.data = some items → k ∈ refKeys items →
      lookupCtx data k = none →
      ∃ k2, executeStringTemplate t data = .error (.missingKey k2)) := by
  refine ⟨?_, ?_, ?_⟩
  · intro out h
    unfold executeStringTemplate at h
    cases hp : parseTmpl t.data with
    | none => rw [hp] at h; cases h
    | some items =>
      rw [hp] at h
      obtain ⟨hkeys, hout⟩ := renderItems_ok h
      exact ⟨items, rfl, hkeys, hout⟩
  · intro hp
    unfold executeStringTemplate
    rw [hp]
  · intro items k hp hk hnone
    unfold executeStringTemplate
    rw [hp]
    try simp only []
    cases hr : renderItems items data with
    | error r =>
      obtain ⟨k2, rfl⟩ := renderItems_missing hr
      exact ⟨k2, rfl⟩
    | ok out =>
      obtain ⟨hkeys, -⟩ := renderItems_ok hr
      have hx := hkeys k hk
      rw [hnone] at hx
      cases hx

/-- C4 witness: the renderer on a concrete template with its key
present, with the key absent, and on a malformed template. -/
theorem executeStringTemplate_strict_witness :
    (∃ items, parseTmpl tmplEx.data = some items ∧
      (∀ k ∈ refKeys items, (lookupCtx [("k", "V")] k).isSome = true) ∧
      "aVb" = fullRender [("k", "V")] items) ∧
    (∃ k2, executeStringTemplate tmplEx [("x", "W")] =
      .error (.missingKey k2)) ∧
    executeStringTemplate tmplBad [("k", "V")] = .error .templateParse := by
  refine ⟨?_, ?_, ?_⟩
  · exact (executeStringTemplate_strict tmplEx [("k", "V")]).1 "aVb" rfl
  · exact (executeStringTemplate_strict tmplEx [("x", "W")]).2.2
      [.lit ['a'], .ref ['k'], .lit ['b']] "k" rfl (by decide) rfl
  · exact (executeStringTemplate_strict tmplBad [("k", "V")]).2.1 rfl

/-- C5: a successful `Pack` factors as packing the whole `dependsOn`
list (same version) and only then the task's own steps, the trace
growing monotonically across the two phases; on the concrete chain
A - B - C, packing A produces exactly the trace that runs all of C,
then all of B, then A's own steps. -/
theorem pack_dependencies_first (env : Env) (t : PackagingTask)
    (v : String) (s s' : St) :
    (PackagingTask.Pack env t v s = .ok s' →
      ∃ s1, packDeps env t.dependsOn v s = .ok s1 ∧
        packOwnSteps env t v s1 = .ok s' ∧
        (∃ e1, s1.events = s.events ++ e1) ∧
        (∃ e2, s'.events = s1.events ++ e2)) ∧
    (PackagingTask.Pack env0 taskA "1.0.0" st0 = .ok stAfin ∧
      stAfin.events = chainEvents) := by
  refine ⟨?_, rfl, rfl⟩
  intro h
  obtain ⟨s1, hd, ho⟩ := pack_decompose h
  refine ⟨s1, hd, ho, ?_, ?_⟩
  · have := packDeps_evExt_ok env v t.dependsOn s s1 hd
    exact this
  · exact packOwnSteps_evExt_ok ho

/-- C5 witness: the decomposition applied to the concrete chain run. -/
theorem pack_dependencies_first_witness :
    ∃ s1, packDeps env0 taskA.dependsOn "1.0.0" st0 = .ok s1 ∧
      packOwnSteps env0 taskA "1.0.0" s1 = .ok stAfin ∧
      (∃ e1, s1.events = st0.events ++ e1) ∧
      (∃ e2, stAfin.events = s1.events ++ e2) :=
  (pack_dependencies_first env0 taskA "1.0.0" st0 stAfin).1 rfl

/-- C6: `IsInitialized` is true exactly when the task's configuration
directory exists; `AssertInitialized` is a no-op whenever
`skipAssertInitialized` is set, regardless of the filesystem, and
otherwise fails with the not-initialized error exactly when
`IsInitialized` is false. -/
theorem assertInitialized_spec (t : PackagingTask) (s : St) :
    (t.IsInitialized s = true ↔
      packagingFormatPath t.packagingFormatName ∈ s.fs) ∧
    (t.skipAssertInitialized = true → t.AssertInitialized s = .ok s) ∧
    (t.skipAssertInitialized = false → t.IsInitialized s = false →
      t.AssertInitialized s =
        .error (.notInitialized t.packagingFormatName, s)) ∧
    (t.skipAssertInitialized = false → t.IsInitialized s = true →
      t.AssertInitialized s = .ok s) := by
  refine ⟨isInitialized_iff, ?_, ?_, ?_⟩
  · intro h1
    simp [PackagingTask.AssertInitialized, h1]
  · intro h1 h2
    simp [PackagingTask.AssertInitialized, h1, h2]
  · intro h1 h2
    simp [PackagingTask.AssertInitialized, h1, h2]

/-- C6 witness: on the empty filesystem, the skip-marked task asserts
silently while `taskC` (not initialized) fails with the
not-initialized error. -/
theorem assertInitialized_spec_witness :
    taskSkip.AssertInitialized stEmpty = .ok stEmpty ∧
    taskC.AssertInitialized stEmpty =
      .error (.notInitialized "linux-c", stEmpty) := by
  constructor
  · exact (assertInitialized_spec taskSkip stEmpty).2.1 rfl
  · exact (assertInitialized_spec taskC stEmpty).2.2.1 rfl rfl

/-- C7: the template context is computed at most once per process:
once a call has returned (and cached) a context, every later call -
whatever its environment, task or arguments - returns that same
context and leaves the state unchanged. -/
theorem getTemplateData_once (env env' : Env) (t t' : PackagingTask)
    (pn v pn' v' : String) (s s1 : St) (d : List (String × String))
    (h : PackagingTask.getTemplateData env t pn v s = .ok (d, s1)) :
    PackagingTask.getTemplateData env' t' pn' v' s1 = .ok (d, s1) := by
  obtain ⟨-, -, hd⟩ := getTemplateData_ok h
  unfold PackagingTask.getTemplateData
  rw [hd]

/-- C7 witness: a first call computes the context; a second call with
different environment, task and arguments returns the identical
context and state. -/
theorem getTemplateData_once_witness :
    ∃ d s1, PackagingTask.getTemplateData env0 taskC "proj" "1.0.0" st0 =
        .ok (d, s1) ∧
      PackagingTask.getTemplateData env1 taskA "other" "9.9.9" s1 =
        .ok (d, s1) := by
  refine ⟨_, _, rfl, ?_⟩
  exact getTemplateData_once env0 env1 taskC taskA "proj" "1.0.0"
    "other" "9.9.9" st0 _ _ rfl

/-- C8: in any successfully computed template context the `release`
entry is the first dot-separated segment of the build version (the
longest prefix before the first dot); in particular version "2.5.1"
yields release "2". -/
theorem templateData_release_spec (env : Env) (t : PackagingTask)
    (pn v : String) (d : List (String × String)) :
    (computeTemplateData env t pn v = .ok d →
      lookupCtx d "release" =
        some (String.mk (v.data.takeWhile (fun a => a != '.')))) ∧
    goSplitFirst '.' "2.5.1" = "2" := by
  refine ⟨?_, rfl⟩
  intro h
  unfold computeTemplateData at h
  try simp only [] at h
  cases h1 : executeStringTemplate t.linuxDesktopFileIconPath
      (baseTemplateData env pn v) with
  | error r1 => rw [h1] at h; (try simp only [] at h); cases h
  | ok iconPath =>
    rw [h1] at h; try simp only [] at h
    cases h2 : executeStringTemplate t.linuxDesktopFileExecutablePath
        (baseTemplateData env pn v ++ [("iconPath", iconPath)]) with
    | error r2 => rw [h2] at h; (try simp only [] at h); cases h
    | ok executablePath =>
      rw [h2] at h; try simp only [] at h
      cases h
      rw [← goSplitFirst_eq_takeWhile]
      simp [lookupCtx, baseTemplateData, List.find?]

/-- C8 witness: the release entry of a concretely computed context. -/
theorem templateData_release_spec_witness :
    ∃ d, computeTemplateData env0 taskC "proj" "2.5.1" = .ok d ∧
      lookupCtx d "release" =
        some (String.mk ("2.5.1".data.takeWhile (fun a => a != '.'))) := by
  refine ⟨_, rfl, ?_⟩
  exact (templateData_release_spec env0 taskC "proj" "2.5.1" _).1 rfl

/-- C9: when the packaging format name contains a hyphen, `Name`
returns everything after the first hyphen; when it contains none,
the Go code's `SplitN(..., 2)[1]` indexes out of range and panics,
modelled as `Name` returning `none`. -/
theorem name_after_first_hyphen (t : PackagingTask) (pre post : List Char) :
    (t.packagingFormatName.data = pre ++ '-' :: post → '-' ∉ pre →
      t.Name = some (String.mk post)) ∧
    ('-' ∉ t.packagingFormatName.data → t.Name = none) := by
  constructor
  · intro hdata hpre
    unfold PackagingTask.Name
    rw [hdata, goSplitN2_split hpre]
    rfl
  · intro hno
    unfold PackagingTask.Name
    rw [goSplitN2_no_sep hno]
    rfl

/-- C9 witness: `Name` of "linux-c" is "c"; `Name` of the
hyphen-free "weird" is the panic (`none`). -/
theorem name_after_first_hyphen_witness :
    taskC.Name = some "c" ∧ taskNoHyphen.Name = none := by
  constructor
  · exact (name_after_first_hyphen taskC "linux".data "c".data).1 rfl (by decide)
  · exact (name_after_first_hyphen taskNoHyphen [] []).2 (by decide)

/-- C10: whenever the packaging script of an invocation exits
non-zero, the invocation had already deleted the format's output
directory (the trace ends with the removal followed by the script
run), the abort names the invocation's temp directory, and the output
directory is absent from the state the process exits with - nothing
restores it; the same holds at `Pack` level for a dependency-free
task. -/
theorem pack_output_dir_removed_before_script (env : Env)
    (t : PackagingTask) (v pn tp : String) (s : St) (d c : String)
    (s' : St) :
    (packInTmp env t v pn tp s = .error (.scriptFailed d c, s') →
      d = tp ∧
      env.outputDirectoryPath t.packagingFormatName ∉ s'.fs ∧
      ∃ pre, s'.events = s.events ++ pre ++
        [Ev.removeOutputDir (env.outputDirectoryPath t.packagingFormatName),
         Ev.runScript tp c]) ∧
    (t.dependsOn = [] →
      PackagingTask.Pack env t v s = .error (.scriptFailed d c, s') →
      env.outputDirectoryPath t.packagingFormatName ∉ s'.fs) := by
  constructor
  · intro h
    obtain ⟨hd, hfs, hev⟩ := packInTmp_scriptFail h
    refine ⟨hd, ?_, hev⟩
    rw [hfs]
    intro hmem
    have := (List.mem_filter.mp hmem).2
    simp at this
  · intro hdeps h
    obtain ⟨n, deps, tf, ef, lde, ldi, hg, bod, pst, ofe, ocv, oua, sai⟩ := t
    simp only [PackagingTask.dependsOn] at hdeps
    subst hdeps
    simp only [PackagingTask.Pack, packDeps] at h
    exact packOwnSteps_scriptFail_outDir h

/-- C10 witness: a concrete failing invocation - the abort names the
temp directory and the output directory is gone. -/
theorem pack_output_dir_removed_before_script_witness :
    ∃ d c s', packInTmp env1 taskC "1.0.0" "proj" "/tmp/x" st0 =
        .error (.scriptFailed d c, s') ∧
      d = "/tmp/x" ∧
      env1.outputDirectoryPath taskC.packagingFormatName ∉ s'.fs := by
  refine ⟨_, _, _, rfl, ?_, ?_⟩
  · exact ((pack_output_dir_removed_before_script env1 taskC "1.0.0" "proj"
      "/tmp/x" st0 _ _ _).1 rfl).1
  · exact ((pack_output_dir_removed_before_script env1 taskC "1.0.0" "proj"
      "/tmp/x" st0 _ _ _).1 rfl).2.1

end Hover
